import Mathlib

/-!
# Verification of the smtp.go wire codec and server session

Shallow embedding of the repository `alexisbouchez/smtp.go`.
Go byte strings are modelled as `List Nat` (each entry a byte value);
machine integers never overflow on the inputs involved, so `Nat`/`Int`
are used directly.  Every definition is translated from the Go source,
file by file; the doc comment on each definition names the source
location it embeds.
-/

set_option linter.unusedVariables false
set_option maxRecDepth 8192

/-- Go strings are byte sequences; we model them as lists of byte values. -/
abbrev GoStr := List Nat

/-- UTF-8 encoding of one code point. -/
def utf8Bytes (c : Nat) : List Nat :=
  if c < 0x80 then [c]
  else if c < 0x800 then [0xC0 + c / 64, 0x80 + c % 64]
  else if c < 0x10000 then [0xE0 + c / 4096, 0x80 + c / 64 % 64, 0x80 + c % 64]
  else [0xF0 + c / 262144, 0x80 + c / 4096 % 64, 0x80 + c / 64 % 64, 0x80 + c % 64]

/-- Convert a Lean string literal to its UTF-8 byte sequence, as Go does
when a string literal appears in the source. -/
def bytesOf (s : String) : GoStr :=
  s.data.flatMap (fun ch => utf8Bytes ch.toNat)

namespace textproto

/-! ## internal/textproto/dot.go -/

/-- States of the dot-stuffing reader (`dot.go` lines 16-23). -/
inductive DotState where
  | beginLine  -- at the beginning of a line
  | line       -- in the middle of a line
  | cr         -- just saw CR
  | dot        -- saw dot at beginning of line
  | dotCR      -- saw dot then CR at beginning of line
  | eof        -- reached termination
deriving DecidableEq, Repr

/-- How one call of `dotReader.Read` returned (`dot.go` lines 29-144):
`filled` = buffer became full and the call returned `(n, nil)`;
`early` = the small-buffer branch of the DotCR case returned `(n, nil)`;
`term` = the terminator was seen and the call returned `(n, io.EOF)`;
`src` = the underlying reader was exhausted (`(n, nil)` if bytes were
emitted, `(0, err)` otherwise; the state becomes EOF either way). -/
inductive ReadExit where
  | filled
  | early
  | term
  | src
deriving DecidableEq, Repr

/-- Result of one `dotReader.Read` call: bytes stored into the caller
buffer, the reader state afterwards, the bytes still unconsumed in the
underlying buffered reader (an `UnreadByte` puts a byte back here), and
how the call returned. -/
structure DotReadResult where
  emitted : List Nat
  state   : DotState
  rest    : List Nat
  exit    : ReadExit
deriving DecidableEq, Repr

/-- The loop body of `dotReader.Read` (`dot.go` lines 34-143).  `free`
is the number of unfilled slots left in the caller buffer `p`
(`len p - n`); the loop runs while `free > 0`.  Each iteration consumes
one byte of `input`; `UnreadByte` in the source puts the byte back at
the head of the remaining input. -/
def dotReadLoop : DotState → List Nat → Nat → DotReadResult
  | st, input, 0 => ⟨[], st, input, .filled⟩
  | st, [], _ + 1 => ⟨[], .eof, [], .src⟩
  | st, b :: rest, free + 1 =>
    match st with
    | .beginLine =>
      if b = 46 then
        dotReadLoop .dot rest (free + 1)
      else if b = 13 then
        let r := dotReadLoop .cr rest free
        ⟨b :: r.emitted, r.state, r.rest, r.exit⟩
      else if b = 10 then
        let r := dotReadLoop .beginLine rest free
        ⟨b :: r.emitted, r.state, r.rest, r.exit⟩
      else
        let r := dotReadLoop .line rest free
        ⟨b :: r.emitted, r.state, r.rest, r.exit⟩
    | .line =>
      let st' : DotState := if b = 13 then .cr else if b = 10 then .beginLine else .line
      let r := dotReadLoop st' rest free
      ⟨b :: r.emitted, r.state, r.rest, r.exit⟩
    | .cr =>
      let st' : DotState := if b = 10 then .beginLine else if b = 13 then .cr else .line
      let r := dotReadLoop st' rest free
      ⟨b :: r.emitted, r.state, r.rest, r.exit⟩
    | .dot =>
      if b = 13 then
        dotReadLoop .dotCR rest (free + 1)
      else if b = 10 then
        ⟨[], .eof, rest, .term⟩
      else if b = 46 then
        let r := dotReadLoop .line rest free
        ⟨46 :: r.emitted, r.state, r.rest, r.exit⟩
      else
        -- dot followed by another byte: emit the dot and the byte;
        -- if only one slot is free, unread the byte.
        if free ≥ 1 then
          let r := dotReadLoop .line rest (free - 1)
          ⟨46 :: b :: r.emitted, r.state, r.rest, r.exit⟩
        else
          ⟨[46], .line, b :: rest, .filled⟩
    | .dotCR =>
      if b = 10 then
        ⟨[], .eof, rest, .term⟩
      else
        if free ≥ 1 then
          -- n+2 <= len(p): emit the dot and the CR, then the byte if a
          -- slot remains, otherwise unread it.
          if free ≥ 2 then
            let r := dotReadLoop .line rest (free - 2)
            ⟨46 :: 13 :: b :: r.emitted, r.state, r.rest, r.exit⟩
          else
            ⟨[46, 13], .line, b :: rest, .filled⟩
        else
          -- exactly one slot free: the source unreads the byte, stores
          -- the dot, and returns; the CR is not emitted.
          ⟨[46], .line, b :: rest, .early⟩
    | .eof =>
      -- unreachable: the wrapper returns before entering the loop in
      -- state EOF, and the loop sets EOF only at its return points.
      ⟨[], .eof, b :: rest, .term⟩

/-- `dotReader.Read` (`dot.go` lines 29-144): returns immediately with
`io.EOF` when the state is already EOF, otherwise runs the loop with
`cap` free slots in the caller buffer. -/
def dotReaderRead (st : DotState) (input : List Nat) (cap : Nat) : DotReadResult :=
  if st = .eof then ⟨[], .eof, input, .term⟩
  else dotReadLoop st input cap

/-- Reading the whole stream through the dot reader with a caller buffer
larger than the stream (as `io.ReadAll` observes when no intermediate
buffer boundary is hit): a single `Read` call then consumes the input up
to the terminator or the end of the stream. -/
def dotReadAll (input : List Nat) : List Nat :=
  (dotReaderRead .beginLine input (input.length + 1)).emitted

/-- State of the dot-stuffing writer (`dot.go` lines 149-153). -/
structure DotWriterState where
  beginLine : Bool
  closed    : Bool
deriving DecidableEq, Repr

/-- The byte loop of `dotWriter.Write` (`dot.go` lines 159-181): doubles
a dot at the beginning of a line and tracks the begin-of-line flag. -/
def dotStuff : Bool → List Nat → List Nat
  | _, [] => []
  | beginLine, b :: rest =>
    (if beginLine ∧ b = 46 then [46, b] else [b]) ++ dotStuff (b = 10) rest

/-- The begin-of-line flag after writing `data` starting from `flag`
(maintained by `dotWriter.Write`, `dot.go` line 178). -/
def dotFlagAfter : Bool → List Nat → Bool
  | flag, [] => flag
  | _, b :: rest => dotFlagAfter (b = 10) rest

/-- `dotWriter.Write` on a fresh writer followed by `dotWriter.Close`
(`dot.go` lines 159-201): the stuffed bytes, then `\r\n` when the last
byte did not end a line, then the terminator `.\r\n`. -/
def dotWriteClose (data : List Nat) : List Nat :=
  dotStuff true data ++
    (if dotFlagAfter true data then [] else [13, 10]) ++ [46, 13, 10]

/-- The transducer semantics of `dotReader.Read` when the caller buffer
never runs out: what the loop computes with unlimited free slots.
`dotReadLoop_eq_dotDecodeR` proves this is what `dotReadLoop` does
whenever the buffer is large enough. -/
def dotDecodeR : DotState → List Nat → DotReadResult
  | _, [] => ⟨[], .eof, [], .src⟩
  | .beginLine, b :: rest =>
    if b = 46 then dotDecodeR .dot rest
    else
      let st' : DotState := if b = 13 then .cr else if b = 10 then .beginLine else .line
      let r := dotDecodeR st' rest
      ⟨b :: r.emitted, r.state, r.rest, r.exit⟩
  | .line, b :: rest =>
    let st' : DotState := if b = 13 then .cr else if b = 10 then .beginLine else .line
    let r := dotDecodeR st' rest
    ⟨b :: r.emitted, r.state, r.rest, r.exit⟩
  | .cr, b :: rest =>
    let st' : DotState := if b = 10 then .beginLine else if b = 13 then .cr else .line
    let r := dotDecodeR st' rest
    ⟨b :: r.emitted, r.state, r.rest, r.exit⟩
  | .dot, b :: rest =>
    if b = 13 then dotDecodeR .dotCR rest
    else if b = 10 then ⟨[], .eof, rest, .term⟩
    else if b = 46 then
      let r := dotDecodeR .line rest
      ⟨46 :: r.emitted, r.state, r.rest, r.exit⟩
    else
      let r := dotDecodeR .line rest
      ⟨46 :: b :: r.emitted, r.state, r.rest, r.exit⟩
  | .dotCR, b :: rest =>
    if b = 10 then ⟨[], .eof, rest, .term⟩
    else
      let r := dotDecodeR .line rest
      ⟨46 :: 13 :: b :: r.emitted, r.state, r.rest, r.exit⟩
  | .eof, b :: rest => ⟨[], .eof, b :: rest, .term⟩

/-- Bytes the reader still owes the caller from already-consumed input:
one buffered dot in state `dot`, a dot and a CR in state `dotCR`. -/
def DotState.pending : DotState → Nat
  | .dot => 1
  | .dotCR => 2
  | _ => 0

/-- With enough free slots in the caller buffer the chunked read loop
computes exactly the unchunked transducer semantics. -/
theorem dotReadLoop_eq_dotDecodeR :
    ∀ (input : List Nat) (st : DotState) (free : Nat),
      input.length + st.pending < free →
      dotReadLoop st input free = dotDecodeR st input := by
  intro input
  induction input with
  | nil =>
    intro st free h
    match free, h with
    | free + 1, _ => cases st <;> rfl
  | cons b rest ih =>
    intro st free h
    match free, h with
    | free + 1, h =>
      have hlen : rest.length + 1 + st.pending < free + 1 := by
        simpa [List.length_cons] using h
      cases st with
      | beginLine =>
        by_cases h46 : b = 46
        · subst h46
          simp only [dotReadLoop, dotDecodeR, if_pos rfl]
          exact ih .dot (free + 1) (by simp [DotState.pending] at hlen ⊢; omega)
        · have hrec : dotReadLoop (if b = 13 then .cr else if b = 10 then .beginLine
              else .line) rest free = dotDecodeR (if b = 13 then .cr
              else if b = 10 then .beginLine else .line) rest := by
            apply ih
            split <;> (try split) <;> simp [DotState.pending] at hlen ⊢ <;> omega
          by_cases h13 : b = 13 <;> by_cases h10 : b = 10 <;>
            simp_all [dotReadLoop, dotDecodeR]
      | line =>
        have hrec : dotReadLoop (if b = 13 then .cr else if b = 10 then .beginLine
            else .line) rest free = dotDecodeR (if b = 13 then .cr
            else if b = 10 then .beginLine else .line) rest := by
          apply ih
          split <;> (try split) <;> simp [DotState.pending] at hlen ⊢ <;> omega
        by_cases h13 : b = 13 <;> by_cases h10 : b = 10 <;>
          simp_all [dotReadLoop, dotDecodeR]
      | cr =>
        have hrec : dotReadLoop (if b = 10 then .beginLine else if b = 13 then .cr
            else .line) rest free = dotDecodeR (if b = 10 then .beginLine
            else if b = 13 then .cr else .line) rest := by
          apply ih
          split <;> (try split) <;> simp [DotState.pending] at hlen ⊢ <;> omega
        by_cases h13 : b = 13 <;> by_cases h10 : b = 10 <;>
          simp_all [dotReadLoop, dotDecodeR]
      | dot =>
        simp [DotState.pending] at hlen
        by_cases h13 : b = 13
        · subst h13
          simp only [dotReadLoop, dotDecodeR, if_pos rfl]
          exact ih .dotCR (free + 1) (by simp [DotState.pending]; omega)
        · by_cases h10 : b = 10
          · subst h10
            simp [dotReadLoop, dotDecodeR, h13]
          · by_cases h46 : b = 46
            · subst h46
              have hrec : dotReadLoop .line rest free = dotDecodeR .line rest :=
                ih .line free (by simp [DotState.pending]; omega)
              simp [dotReadLoop, dotDecodeR, hrec]
            · have hfree : free ≥ 1 := by omega
              have hrec : dotReadLoop .line rest (free - 1) = dotDecodeR .line rest :=
                ih .line (free - 1) (by simp [DotState.pending]; omega)
              simp [dotReadLoop, dotDecodeR, h13, h10, h46, hfree, hrec]
      | dotCR =>
        simp [DotState.pending] at hlen
        by_cases h10 : b = 10
        · subst h10
          simp [dotReadLoop, dotDecodeR]
        · have h1 : free ≥ 1 := by omega
          have h2 : free ≥ 2 := by omega
          have hrec : dotReadLoop .line rest (free - 2) = dotDecodeR .line rest :=
            ih .line (free - 2) (by simp [DotState.pending]; omega)
          simp [dotReadLoop, dotDecodeR, h10, h1, h2, hrec]
      | eof =>
        simp [dotReadLoop, dotDecodeR]

/-- The reader states `cr` and `line` have identical observable
behaviour: both always emit the byte, and they move to the same
successor state on every byte. -/
theorem dotDecodeR_cr_eq_line : ∀ xs : List Nat, dotDecodeR .cr xs = dotDecodeR .line xs := by
  intro xs
  cases xs with
  | nil => rfl
  | cons b rest =>
    by_cases h13 : b = 13 <;> by_cases h10 : b = 10 <;>
      simp_all [dotDecodeR]

/-- The reader state matching a writer begin-of-line flag. -/
def flagState : Bool → DotState
  | true => .beginLine
  | false => .line

/-- Feeding the dot-stuffed encoding of `data` to the reader emits
exactly `data` and leaves the reader in the state matching the writer
flag, whatever bytes follow. -/
theorem dotDecodeR_dotStuff (data : List Nat) :
    ∀ (flag : Bool) (tail : List Nat),
      dotDecodeR (flagState flag) (dotStuff flag data ++ tail) =
        (let r := dotDecodeR (flagState (dotFlagAfter flag data)) tail
         ⟨data ++ r.emitted, r.state, r.rest, r.exit⟩) := by
  induction data with
  | nil => intro flag tail; simp [dotStuff, dotFlagAfter]
  | cons b rest ih =>
    intro flag tail
    have ihT := ih true tail
    have ihF := ih false tail
    simp only [flagState] at ihT ihF
    cases flag with
    | true =>
      by_cases h46 : b = 46
      · subst h46
        simp [dotStuff, dotFlagAfter, flagState, dotDecodeR, ihF]
      · by_cases h13 : b = 13
        · subst h13
          simp [dotStuff, dotFlagAfter, flagState, dotDecodeR,
            dotDecodeR_cr_eq_line, ihF]
        · by_cases h10 : b = 10
          · subst h10
            simp [dotStuff, dotFlagAfter, flagState, dotDecodeR, ihT]
          · simp [dotStuff, dotFlagAfter, flagState, dotDecodeR,
              ihF, h46, h13, h10]
    | false =>
      by_cases h13 : b = 13
      · subst h13
        simp [dotStuff, dotFlagAfter, flagState, dotDecodeR,
          dotDecodeR_cr_eq_line, ihF]
      · by_cases h10 : b = 10
        · subst h10
          simp [dotStuff, dotFlagAfter, flagState, dotDecodeR, ihT]
        · simp [dotStuff, dotFlagAfter, flagState, dotDecodeR,
            ihF, h13, h10]

/-- Processing the close sequence written by `dotWriter.Close` from the
matching reader state emits the optional CRLF and terminates. -/
theorem dotDecodeR_close (flag : Bool) :
    dotDecodeR (flagState flag) ((if flag then [] else [13, 10]) ++ [46, 13, 10]) =
      ⟨(if flag then [] else [13, 10]), .eof, [], .term⟩ := by
  cases flag <;> simp [flagState, dotDecodeR]

/-- The writer begin-of-line flag after `data`, characterized: it stays
true exactly when `data` is empty or ends with LF. -/
theorem dotFlagAfter_true (data : List Nat) :
    ∀ flag, dotFlagAfter flag data = (data = [] ∧ flag ∨ data.getLast? = some 10 : Bool) := by
  induction data with
  | nil => intro flag; cases flag <;> simp [dotFlagAfter]
  | cons b rest ih =>
    intro flag
    cases rest with
    | nil => simp [dotFlagAfter, ih, List.getLast?]
    | cons c rest2 =>
      rw [dotFlagAfter, ih]
      simp [List.getLast?_cons_cons]

/-- Claim C1 (amended): for every byte sequence B, writing B through the
dot-stuffing writer, closing it, and reading the produced bytes back
through the dot-stuffing reader yields B itself, after canonicalizing B
by appending CRLF when B is nonempty and does not already end with an LF
byte.  (The claim as stated, which canonicalizes whenever B does not end
with the two-byte sequence CRLF, fails: see the counterexample.) -/
theorem C1_dot_roundtrip (B : List Nat) :
    dotReadAll (dotWriteClose B) =
      B ++ (if B = [] ∨ B.getLast? = some 10 then [] else [13, 10]) := by
  unfold dotReadAll dotReaderRead
  rw [if_neg (by simp)]
  rw [dotReadLoop_eq_dotDecodeR _ _ _ (by simp [DotState.pending])]
  unfold dotWriteClose
  rw [List.append_assoc]
  have h1 : DotState.beginLine = flagState true := rfl
  rw [h1, dotDecodeR_dotStuff B true _, dotDecodeR_close]
  simp only [dotFlagAfter_true B true]
  rcases Classical.em (B = [] ∨ B.getLast? = some 10) with h | h
  · simp [h]
  · simp [h]

/-- Claim C1, as stated, is false: the byte sequence "a LF" does not end
with CRLF, so the claim demands that the round trip append CRLF; but the
writer regards a trailing bare LF as ending a line, so the round trip
returns the sequence unchanged. -/
theorem C1_dot_roundtrip_counterexample :
    ([13, 10] : List Nat).isSuffixOf [97, 10] = false ∧
    dotReadAll (dotWriteClose [97, 10]) = [97, 10] ∧
    dotReadAll (dotWriteClose [97, 10]) ≠ [97, 10] ++ [13, 10] := by
  decide

/-- Claim C6: at state SawDotCR an LF ends the body with the LF
consumed; for any other byte b the reader must emit the buffered dot,
then the CR, then b, unreading at most one byte when the caller buffer
is exhausted, losing none of the three bytes.  The code violates this:
with exactly one free slot it emits the dot, unreads b, and never emits
the CR.  On the wire bytes ". CR x", a first read with a one-byte buffer
followed by a full read yields ". x" — the CR is lost — while a single
large read yields ". CR x". -/
theorem C6_dotCR_cr_lost :
    -- the LF half of the claim, at a concrete input: terminator consumed, EOF
    dotReaderRead .dotCR [10, 99] 5 = ⟨[], .eof, [99], .term⟩ ∧
    -- first read with a one-byte caller buffer: emits only the dot,
    -- unreads the byte, and silently discards the CR
    dotReaderRead .beginLine [46, 13, 120] 1 = ⟨[46], .line, [120], .early⟩ ∧
    -- draining afterwards returns only the unread byte
    (dotReaderRead .line [120] 2).emitted = [120] ∧
    -- total across the two chunked reads: the CR never appears
    [46] ++ [120] ≠ [46, 13, 120] ∧
    -- whereas one large read emits all three bytes
    (dotReaderRead .beginLine [46, 13, 120] 4).emitted = [46, 13, 120] := by
  decide

/-! ## internal/textproto/conn.go -/

/-- Reading errors `Conn.ReadLine` can surface: the underlying reader
was exhausted with no data, or the line exceeded the limit. -/
inductive LineErr where
  | eof
  | tooLong
deriving DecidableEq, Repr

/-- `bufio.Reader.ReadLine` up to the first LF: the raw bytes before the
LF and the remaining input after it.  `none` when no LF is present. -/
def takeToLF : List Nat → Option (List Nat × List Nat)
  | [] => none
  | b :: rest =>
    if b = 10 then some ([], rest)
    else
      match takeToLF rest with
      | none => none
      | some (raw, rem) => some (b :: raw, rem)

/-- Drop one CR immediately before the LF, as `bufio.Reader.ReadLine`
does when the line ends with `\r\n`. -/
def stripTrailingCR (raw : List Nat) : List Nat :=
  if raw.getLast? = some 13 then raw.dropLast else raw

/-- `Conn.ReadLine` (`conn.go` lines 86-113), modelled over the byte
stream.  When the stream has an LF, `bufio.ReadLine` yields the content
with the terminator (LF or CRLF) removed; with no LF but data left it
yields the unterminated data; with no data it reports an error.  The
in-loop `len(line) > maxLen` drain path and the final
`len(line) > maxLen-2` check both produce the same observable error
result, so the function collapses to the final check. -/
def readLine (maxLen : Nat) (input : List Nat) :
    Except LineErr (List Nat × List Nat) :=
  match takeToLF input with
  | some (raw, rem) =>
    let content := stripTrailingCR raw
    if content.length > maxLen - 2 then .error .tooLong else .ok (content, rem)
  | none =>
    if input = [] then .error .eof
    else if input.length > maxLen - 2 then .error .tooLong
    else .ok (input, [])

theorem takeToLF_no_lf (content : List Nat) (rest : List Nat) (h : (10 : Nat) ∉ content) :
    takeToLF (content ++ 10 :: rest) = some (content, rest) := by
  induction content with
  | nil => simp [takeToLF]
  | cons b tl ih =>
    have hb : b ≠ 10 := fun hb => h (by simp [hb])
    have htl : (10 : Nat) ∉ tl := fun hm => h (List.mem_cons_of_mem _ hm)
    simp [takeToLF, hb, ih htl]

/-- Claim C7 (amended): `ReadLine(max_bytes)` strips the trailing
terminator and accepts a line exactly when its content (terminator
excluded) is at most `max_bytes - 2` long.  For a CRLF-terminated line
this is the same as "raw length including CRLF is at most max_bytes",
and a raw line of exactly `max_bytes` bytes ending in CRLF is accepted;
but a line terminated by a bare LF is measured as if it also carried a
CR, so a bare-LF line whose raw length equals `max_bytes` is rejected
(see the counterexample), refuting the "if and only if the raw line
exceeds max_bytes" form of the claim. -/
theorem C7_readLine_amended (content rest : List Nat) (maxLen : Nat)
    (hmax : 2 ≤ maxLen) (hlf : (10 : Nat) ∉ content) :
    readLine maxLen (content ++ [13, 10] ++ rest) =
      (if content.length + 2 ≤ maxLen then .ok (content, rest) else .error .tooLong) ∧
    (content.getLast? ≠ some 13 →
      readLine maxLen (content ++ [10] ++ rest) =
        (if content.length + 2 ≤ maxLen then .ok (content, rest) else .error .tooLong)) := by
  constructor
  · have h13 : (10 : Nat) ∉ content ++ [13] := by
      intro hm
      rcases List.mem_append.1 hm with hm | hm
      · exact hlf hm
      · simp at hm
    have ht : takeToLF ((content ++ [13]) ++ 10 :: rest) = some (content ++ [13], rest) :=
      takeToLF_no_lf _ _ h13
    have harr : content ++ [13, 10] ++ rest = (content ++ [13]) ++ 10 :: rest := by simp
    rw [readLine, harr, ht]
    dsimp only
    have hstrip : stripTrailingCR (content ++ [13]) = content := by
      simp [stripTrailingCR]
    rw [hstrip]
    rcases Classical.em (content.length + 2 ≤ maxLen) with hle | hle
    · rw [if_neg (by omega), if_pos hle]
    · rw [if_pos (by omega), if_neg hle]
  · intro hcr
    have ht : takeToLF (content ++ 10 :: rest) = some (content, rest) :=
      takeToLF_no_lf _ _ hlf
    have harr : content ++ [10] ++ rest = content ++ 10 :: rest := by simp
    rw [readLine, harr, ht]
    dsimp only
    have hstrip : stripTrailingCR content = content := by
      simp [stripTrailingCR, hcr]
    rw [hstrip]
    rcases Classical.em (content.length + 2 ≤ maxLen) with hle | hle
    · rw [if_neg (by omega), if_pos hle]
    · rw [if_pos (by omega), if_neg hle]

/-- Witness for C7 (amended): a concrete CRLF line of raw length exactly
512 is accepted with the terminator stripped. -/
theorem C7_readLine_amended_witness :
    readLine 512 (List.replicate 510 120 ++ [13, 10] ++ []) =
      .ok (List.replicate 510 120, []) := by
  have h := (C7_readLine_amended (List.replicate 510 120) [] 512 (by omega)
    (by simp)).1
  simpa using h

/-- Claim C7, as stated, is false: a line of 511 bytes terminated by a
bare LF has raw length exactly 512 = max_bytes, yet `ReadLine` rejects
it, because the length check charges every line for a CRLF terminator. -/
theorem C7_readLine_counterexample :
    (List.replicate 511 120 ++ [10]).length = 512 ∧
    readLine 512 (List.replicate 511 120 ++ [10]) = .error .tooLong := by
  constructor
  · simp
  · have ht : takeToLF (List.replicate 511 120 ++ 10 :: []) =
        some (List.replicate 511 120, []) :=
      takeToLF_no_lf _ _ (by simp)
    rw [readLine, show List.replicate 511 120 ++ [10] =
      List.replicate 511 120 ++ 10 :: [] from rfl, ht]
    dsimp only
    rw [show stripTrailingCR (List.replicate 511 120) = List.replicate 511 120 from by
      simp [stripTrailingCR, List.getLast?_replicate]]
    rw [if_pos (by simp)]

/-! ### String helpers shared by the embeddings

These model the Go standard library functions the sources call.  Only
the ASCII behaviour is exercised by SMTP commands and replies. -/

/-- `strings.Split(s, string(sep))` for a one-byte separator: split on
every occurrence, keeping empty fields. -/
def splitOnByte (sep : Nat) : GoStr → List GoStr
  | [] => [[]]
  | b :: rest =>
    if b = sep then [] :: splitOnByte sep rest
    else
      match splitOnByte sep rest with
      | [] => [[b]]
      | p :: ps => (b :: p) :: ps

/-- `strings.Cut(s, string(sep))` for a one-byte separator: the part
before the first occurrence, the part after it, and whether it was
found (absent: after is empty). -/
def cutByte (sep : Nat) : GoStr → GoStr × GoStr × Bool
  | [] => ([], [], false)
  | b :: rest =>
    if b = sep then ([], rest, true)
    else
      let r := cutByte sep rest
      (b :: r.1, r.2.1, r.2.2)

/-- `strings.Join(parts, "\n")`. -/
def joinLF : List GoStr → GoStr
  | [] => []
  | [p] => p
  | p :: ps => p ++ 10 :: joinLF ps

/-- The decimal digits of an integer, as `fmt.Sprintf("%d", n)` emits
them. -/
def intDecimal (n : Int) : GoStr := bytesOf (toString n)

/-- `strconv.Atoi` on the digits after an optional sign: `none` when the
remaining bytes are empty or contain a non-digit.  Accumulates the
value; the inputs exercised here are far below the int64 bound, so
overflow is not modelled. -/
def atoiDigits : Int → GoStr → Option Int
  | acc, [] => some acc
  | acc, d :: rest =>
    if 48 ≤ d ∧ d ≤ 57 then atoiDigits (acc * 10 + ((d : Int) - 48)) rest
    else none

/-- `strconv.Atoi` (sign handling per `strconv.ParseInt`). -/
def goAtoi : GoStr → Option Int
  | [] => none
  | 43 :: ds => if ds = [] then none else atoiDigits 0 ds
  | 45 :: ds => if ds = [] then none else (atoiDigits 0 ds).map (fun v => -v)
  | ds => atoiDigits 0 ds

/-! ### Enhanced status codes and reply serialization -/

end textproto

namespace smtp

/-- `EnhancedCode` (`enhancedcode.go` lines 7-12). -/
structure EnhancedCode where
  Class   : Int
  Subject : Int
  Detail  : Int
deriving DecidableEq, Repr

/-- `EnhancedCode.IsZero` (`enhancedcode.go` lines 55-57). -/
def EnhancedCode.IsZero (e : EnhancedCode) : Bool :=
  e.Class = 0 ∧ e.Subject = 0 ∧ e.Detail = 0

/-- `EnhancedCode.String` (`enhancedcode.go` lines 49-51):
`"%d.%d.%d"`. -/
def EnhancedCode.render (e : EnhancedCode) : GoStr :=
  textproto.intDecimal e.Class ++ [46] ++ textproto.intDecimal e.Subject ++
    [46] ++ textproto.intDecimal e.Detail

/-- `SMTPError` (`src/unnamed/part_006` lines 10-14): reply code, optional enhanced code,
human-readable message. -/
structure SMTPError where
  Code         : Int
  EnhancedCode : EnhancedCode
  Message      : GoStr
deriving DecidableEq, Repr

/-- One line of `SMTPError.WireLines` output: code, separator, the
enhanced code when nonzero, the text, CRLF. -/
def wireLine (code : Int) (enh : EnhancedCode) (sep : Nat) (line : GoStr) : GoStr :=
  textproto.intDecimal code ++ [sep] ++
    (if ¬enh.IsZero then enh.render ++ [32] else []) ++ line ++ [13, 10]

/-- The line loop of `SMTPError.WireLines`: dash separator on every line
but the last, space on the last. -/
def wireLinesLoop (code : Int) (enh : EnhancedCode) : List GoStr → GoStr
  | [] => []
  | [line] => wireLine code enh 32 line
  | line :: rest => wireLine code enh 45 line ++ wireLinesLoop code enh rest

/-- `SMTPError.WireLines` (`src/unnamed/part_006` lines 32-54): format the error as
wire-protocol reply lines, one per embedded newline, with code-dash
continuations and the enhanced code repeated on every line. -/
def SMTPError.WireLines (e : SMTPError) : GoStr :=
  let msg := if e.Message = [] then bytesOf "Error" else e.Message
  wireLinesLoop e.Code e.EnhancedCode (textproto.splitOnByte 10 msg)

end smtp

namespace textproto

/-- Whitespace bytes trimmed by `strings.TrimSpace` and split on by
`strings.Fields` (the ASCII part of `unicode.IsSpace`; SMTP commands are
ASCII). -/
def isSpaceByte (b : Nat) : Bool :=
  b = 32 ∨ b = 9 ∨ b = 10 ∨ b = 11 ∨ b = 12 ∨ b = 13

/-- `strings.TrimSpace`. -/
def goTrimSpace (s : GoStr) : GoStr :=
  ((s.dropWhile isSpaceByte).reverse.dropWhile isSpaceByte).reverse

theorem length_dropWhile_le (p : Nat → Bool) (l : List Nat) :
    (l.dropWhile p).length ≤ l.length := by
  induction l with
  | nil => simp [List.dropWhile]
  | cons a tl ih =>
    rw [List.dropWhile_cons]
    split
    · exact Nat.le_succ_of_le ih
    · simp

/-- `strings.Fields`: the maximal runs of non-whitespace bytes. -/
def splitFields : GoStr → List GoStr
  | [] => []
  | b :: rest =>
    if isSpaceByte b then splitFields rest
    else
      (b :: rest.takeWhile (fun c => ¬ isSpaceByte c)) ::
        splitFields (rest.dropWhile (fun c => ¬ isSpaceByte c))
termination_by s => s.length
decreasing_by
  all_goals simp only [List.length_cons]
  · omega
  · have := length_dropWhile_le (fun c => ¬ isSpaceByte c) rest
    omega

/-- `strings.ToUpper` restricted to ASCII (SMTP verbs and keywords are
ASCII). -/
def toUpperASCII (s : GoStr) : GoStr :=
  s.map (fun b => if 97 ≤ b ∧ b ≤ 122 then b - 32 else b)

/-- `strings.LastIndexByte`. -/
def lastIndexOfByte (c : Nat) : GoStr → Option Nat
  | [] => none
  | b :: rest =>
    match lastIndexOfByte c rest with
    | some i => some (i + 1)
    | none => if b = c then some 0 else none

end textproto

namespace smtp

/-! ## address.go -/

/-- `Mailbox` (`address.go` lines 10-13). -/
structure Mailbox where
  LocalPart : GoStr
  Domain    : GoStr
deriving DecidableEq, Repr

/-- `ReversePath` (`address.go` lines 30-33); the zero value is the null
reverse-path. -/
structure ReversePath where
  Mailbox : Mailbox
  Null    : Bool
deriving DecidableEq, Repr

/-- `ForwardPath` (`address.go` lines 44-46). -/
structure ForwardPath where
  Mailbox : Mailbox
deriving DecidableEq, Repr

/-- The Go zero value of `ReversePath`. -/
def zeroReversePath : ReversePath := ⟨⟨[], []⟩, false⟩

/-- `isAtext` (`address.go` lines 177-186).  Bytes at or above 128 are
parts of runes above 127, which the rune-level source also rejects. -/
def isAtext (b : Nat) : Bool :=
  (97 ≤ b ∧ b ≤ 122) ∨ (65 ≤ b ∧ b ≤ 90) ∨ (48 ≤ b ∧ b ≤ 57) ∨
    b ∈ [33, 35, 36, 37, 38, 39, 42, 43, 45, 47, 61, 63, 94, 95, 96, 123, 124, 125, 126]

/-- `isDotAtomChar` (`address.go` lines 169-174). -/
def isDotAtomChar (b : Nat) : Bool := b = 46 ∨ isAtext b

/-- `validateDotAtom` (`address.go` lines 151-167), as a predicate
(`true` = no error). -/
def validateDotAtom (s : GoStr) : Bool :=
  s ≠ [] ∧ s.head? ≠ some 46 ∧ s.getLast? ≠ some 46 ∧
    ¬ decide (([46, 46] : GoStr) <:+: s) ∧ s.all isDotAtomChar

/-- `validateQuotedLocalPart` (`address.go` lines 188-203): backslash
escapes the next byte; an unescaped quote or a trailing backslash is an
error. -/
def validateQuotedLocalPart : GoStr → Bool
  | [] => true
  | 92 :: rest =>
    match rest with
    | [] => false
    | _ :: rest2 => validateQuotedLocalPart rest2
  | 34 :: _ => false
  | _ :: rest => validateQuotedLocalPart rest

/-- `validateLocalPart` (`address.go` lines 135-149). -/
def validateLocalPart (lp : GoStr) : Bool :=
  if lp = [] then false
  else if lp.length > 64 then false
  else if 2 ≤ lp.length ∧ lp.head? = some 34 ∧ lp.getLast? = some 34 then
    validateQuotedLocalPart (lp.drop 1).dropLast
  else validateDotAtom lp

/-- `utf8.ValidString`. -/
def utf8Valid : GoStr → Bool
  | [] => true
  | b :: rest =>
    if b < 0x80 then utf8Valid rest
    else if b < 0xC2 then false
    else if b ≤ 0xDF then
      match rest with
      | c1 :: rest1 => (0x80 ≤ c1 ∧ c1 ≤ 0xBF) ∧ utf8Valid rest1
      | _ => false
    else if b ≤ 0xEF then
      match rest with
      | c1 :: c2 :: rest2 =>
        (if b = 0xE0 then 0xA0 ≤ c1 ∧ c1 ≤ 0xBF
         else if b = 0xED then 0x80 ≤ c1 ∧ c1 ≤ 0x9F
         else 0x80 ≤ c1 ∧ c1 ≤ 0xBF) ∧
        (0x80 ≤ c2 ∧ c2 ≤ 0xBF) ∧ utf8Valid rest2
      | _ => false
    else if b ≤ 0xF4 then
      match rest with
      | c1 :: c2 :: c3 :: rest3 =>
        (if b = 0xF0 then 0x90 ≤ c1 ∧ c1 ≤ 0xBF
         else if b = 0xF4 then 0x80 ≤ c1 ∧ c1 ≤ 0x8F
         else 0x80 ≤ c1 ∧ c1 ≤ 0xBF) ∧
        (0x80 ≤ c2 ∧ c2 ≤ 0xBF) ∧ (0x80 ≤ c3 ∧ c3 ≤ 0xBF) ∧ utf8Valid rest3
      | _ => false
    else false

/-- `isDomainChar` (`address.go` lines 251-263): ASCII letters, digits,
hyphen, and anything above 127 (internationalized names). -/
def isDomainChar (b : Nat) : Bool :=
  (97 ≤ b ∧ b ≤ 122) ∨ (65 ≤ b ∧ b ≤ 90) ∨ (48 ≤ b ∧ b ≤ 57) ∨ b = 45 ∨ b > 127

/-- One label check from the loop of `validateDomain`
(`address.go` lines 228-247). -/
def validLabel (label : GoStr) : Bool :=
  label ≠ [] ∧ label.length ≤ 63 ∧ utf8Valid label ∧
    label.head? ≠ some 45 ∧ label.getLast? ≠ some 45 ∧ label.all isDomainChar

/-- `validateDomain` (`address.go` lines 207-249). -/
def validateDomain (domain : GoStr) : Bool :=
  if domain = [] then false
  else if domain.length > 255 then false
  else if domain.head? = some 91 then domain.getLast? = some 93
  else if domain.head? = some 46 ∨ domain.getLast? = some 46 then false
  else (textproto.splitOnByte 46 domain).all validLabel

/-- `ParseMailbox` (`address.go` lines 55-84). -/
def ParseMailbox (s : GoStr) : Option Mailbox :=
  if s = [] then none
  else
    match textproto.lastIndexOfByte 64 s with
    | none => none
    | some at_ =>
      if at_ = 0 then none
      else if at_ = s.length - 1 then none
      else
        let lp := s.take at_
        let domain := s.drop (at_ + 1)
        if validateLocalPart lp ∧ validateDomain domain then some ⟨lp, domain⟩
        else none

/-- `ParseReversePath` (`address.go` lines 88-110). -/
def ParseReversePath (s : GoStr) : Option ReversePath :=
  let s := textproto.goTrimSpace s
  if s = [60, 62] then some ⟨⟨[], []⟩, true⟩
  else
    let inner :=
      if s.head? = some 60 ∧ s.getLast? = some 62 then (s.drop 1).dropLast else s
    if inner = [] then some ⟨⟨[], []⟩, true⟩
    else (ParseMailbox inner).map (fun m => ⟨m, false⟩)

/-- `ParseForwardPath` (`address.go` lines 114-131). -/
def ParseForwardPath (s : GoStr) : Option ForwardPath :=
  let s := textproto.goTrimSpace s
  let inner :=
    if s.head? = some 60 ∧ s.getLast? = some 62 then (s.drop 1).dropLast else s
  if inner = [] then none
  else (ParseMailbox inner).map (fun m => ⟨m⟩)

/-! ## SASL PLAIN (`src/unnamed/part_015`, client side) and base64 -/

/-- `plainAuth.Start` (client-side PLAIN): the initial response
`identity NUL username NUL password`. -/
def plainAuthStart (identity username password : GoStr) : GoStr :=
  identity ++ 0 :: username ++ 0 :: password

/-- `splitNull` (`session.go` lines 675-686): split a byte slice on NUL
bytes, keeping empty fields. -/
def splitNull : GoStr → List GoStr
  | [] => [[]]
  | b :: rest =>
    if b = 0 then [] :: splitNull rest
    else
      match splitNull rest with
      | [] => [[b]]
      | p :: ps => (b :: p) :: ps

/-- Value of one base64 alphabet byte. -/
def b64Val (c : Nat) : Option Nat :=
  if 65 ≤ c ∧ c ≤ 90 then some (c - 65)
  else if 97 ≤ c ∧ c ≤ 122 then some (c - 97 + 26)
  else if 48 ≤ c ∧ c ≤ 57 then some (c - 48 + 52)
  else if c = 43 then some 62
  else if c = 47 then some 63
  else none

/-- One base64 alphabet byte for a 6-bit value. -/
def b64Char (n : Nat) : Nat :=
  if n < 26 then 65 + n
  else if n < 52 then 97 + (n - 26)
  else if n < 62 then 48 + (n - 52)
  else if n = 62 then 43 else 47

/-- `base64.StdEncoding.EncodeToString`. -/
def base64Encode : GoStr → GoStr
  | [] => []
  | [a] => [b64Char (a / 4), b64Char (a % 4 * 16), 61, 61]
  | [a, b] => [b64Char (a / 4), b64Char (a % 4 * 16 + b / 16), b64Char (b % 16 * 4), 61]
  | a :: b :: c :: rest =>
    [b64Char (a / 4), b64Char (a % 4 * 16 + b / 16),
     b64Char (b % 16 * 4 + c / 64), b64Char (c % 64)] ++ base64Encode rest

/-- The group loop of `base64.StdEncoding.DecodeString` after newline
filtering: groups of four alphabet bytes, with `=` padding allowed only
at the end. -/
def base64DecodeCore : GoStr → Option GoStr
  | [] => some []
  | [a, b, 61, 61] =>
    match b64Val a, b64Val b with
    | some va, some vb => some [va * 4 + vb / 16]
    | _, _ => none
  | [a, b, c, 61] =>
    match b64Val a, b64Val b, b64Val c with
    | some va, some vb, some vc => some [va * 4 + vb / 16, vb % 16 * 16 + vc / 4]
    | _, _, _ => none
  | a :: b :: c :: d :: rest =>
    match b64Val a, b64Val b, b64Val c, b64Val d with
    | some va, some vb, some vc, some vd =>
      (base64DecodeCore rest).map
        (fun tl => (va * 4 + vb / 16) :: (vb % 16 * 16 + vc / 4) :: (vc % 4 * 64 + vd) :: tl)
    | _, _, _, _ => none
  | _ => none

/-- `base64.StdEncoding.DecodeString` (`base64Decode` in session.go):
ignores CR and LF, then decodes standard base64 with padding. -/
def base64Decode (s : GoStr) : Option GoStr :=
  base64DecodeCore (s.filter (fun b => b ≠ 10 ∧ b ≠ 13))

end smtp

namespace textproto

/-- One line written by `Conn.WriteReply` (`conn.go` lines 188-206):
`fmt.Sprintf("%d%c%s", code, sep, line)` followed by CRLF. -/
def writeReplyLine (code : Int) (sep : Nat) (line : GoStr) : GoStr :=
  intDecimal code ++ [sep] ++ line ++ [13, 10]

/-- The line loop of `Conn.WriteReply`: dash separator on all lines but
the last, space on the last. -/
def writeReplyLoop (code : Int) : List GoStr → GoStr
  | [] => []
  | [line] => writeReplyLine code 32 line
  | line :: rest => writeReplyLine code 45 line ++ writeReplyLoop code rest

/-- `Conn.WriteReply` (`conn.go` lines 188-206): an empty list becomes a
single empty line, then each line is written with its separator. -/
def writeReply (code : Int) (lines : List GoStr) : GoStr :=
  writeReplyLoop code (if lines = [] then [[]] else lines)

/-- Result of `ParseEnhancedCode`. -/
structure EnhParse where
  class_  : Int
  subject : Int
  detail  : Int
  rest    : GoStr
deriving DecidableEq, Repr

/-- `ParseEnhancedCode` (`conn.go` lines 246-271): split the text at the
first space, split the first part on dots into three segments, parse
each with `strconv.Atoi`, and require the class to lie in 2..5;
otherwise return the zero code with the original text. -/
def ParseEnhancedCode (text : GoStr) : EnhParse :=
  let cut := cutByte 32 text
  let code := cut.1
  let rest := if cut.2.2 then cut.2.1 else []
  match splitOnByte 46 code with
  | [s0, s1, s2] =>
    match goAtoi s0, goAtoi s1, goAtoi s2 with
    | some c, some s, some d =>
      if c < 2 ∨ c > 5 then ⟨0, 0, 0, text⟩
      else ⟨c, s, d, rest⟩
    | _, _, _ => ⟨0, 0, 0, text⟩
  | _ => ⟨0, 0, 0, text⟩

end textproto

namespace smtpclient

/-- `textproto.Reply` (`conn.go` lines 140-143): a parsed reply code and
its text lines. -/
structure Reply where
  Code  : Int
  Lines : List GoStr
deriving DecidableEq, Repr

/-- `replyToError` (`client.go` lines 506-526): join all lines with
newlines; when the first line carries an enhanced code, record it, and
strip its prefix from the message only when the reply has exactly one
line. -/
def replyToError (reply : Reply) : smtp.SMTPError :=
  let msg := textproto.joinLF reply.Lines
  match reply.Lines with
  | [] => ⟨reply.Code, ⟨0, 0, 0⟩, msg⟩
  | first :: _ =>
    let p := textproto.ParseEnhancedCode first
    if p.class_ ≠ 0 then
      let msg := if reply.Lines.length = 1 then p.rest else msg
      ⟨reply.Code, ⟨p.class_, p.subject, p.detail⟩, msg⟩
    else
      ⟨reply.Code, ⟨0, 0, 0⟩, msg⟩

/-- The amended description of the error translation, written from the
amended claim words, to be compared with `replyToError`: the enhanced
code is taken from the first line when one parses there; the message is
the newline-join of all lines, except that for a one-line reply whose
enhanced code parsed, the parsed-off remainder replaces it. -/
def replyToErrorAmendedSpec (reply : Reply) : smtp.SMTPError :=
  let parsed : Option textproto.EnhParse :=
    match reply.Lines.head? with
    | none => none
    | some first =>
      let p := textproto.ParseEnhancedCode first
      if p.class_ = 0 then none else some p
  match parsed with
  | none => ⟨reply.Code, ⟨0, 0, 0⟩, textproto.joinLF reply.Lines⟩
  | some p =>
    ⟨reply.Code, ⟨p.class_, p.subject, p.detail⟩,
      if reply.Lines.length = 1 then p.rest else textproto.joinLF reply.Lines⟩

/-- Claim C9 (amended): every unexpected reply is converted into a
ProtocolError whose enhanced code is the triple parsed from the first
line when one is present; the message is the newline-joined
concatenation of all reply lines, with the enhanced-code prefix stripped
from the first line only when the reply has exactly one line — for a
multi-line reply the prefix is left in place even though extraction
succeeded (see the counterexample for the original claim). -/
theorem C9_replyToError_amended (reply : Reply) :
    replyToError reply = replyToErrorAmendedSpec reply := by
  rcases reply with ⟨code, lines⟩
  cases lines with
  | nil => rfl
  | cons first more =>
    by_cases h : (textproto.ParseEnhancedCode first).class_ = 0 <;>
      simp [replyToError, replyToErrorAmendedSpec, h]

/-- Claim C9, as stated, is false for multi-line replies: the enhanced
code parses from the first line, yet the message keeps the "5.7.1 "
prefix instead of stripping it. -/
theorem C9_replyToError_counterexample :
    replyToError ⟨550, [bytesOf "5.7.1 no", bytesOf "again"]⟩ =
      ⟨550, ⟨5, 7, 1⟩, bytesOf "5.7.1 no\nagain"⟩ ∧
    bytesOf "5.7.1 no\nagain" ≠ bytesOf "no\nagain" := by
  decide

end smtpclient

namespace smtpserver

/-! ## smtpserver/session.go -/

/-- `sessionState` (`session.go` lines 20-28). -/
inductive SessionState where
  | new
  | greeted
  | mail
  | rcpt
  | data
deriving DecidableEq, Repr

/-- The integer value of a `sessionState`, for the `<` and `>=`
comparisons the source performs on it. -/
def SessionState.rank : SessionState → Nat
  | .new => 0
  | .greeted => 1
  | .mail => 2
  | .rcpt => 3
  | .data => 4

/-- A handler result: `nil`, a typed `*smtp.SMTPError`, or any other
error (which the session maps to a generic reply). -/
inductive HErr where
  | smtpE (e : smtp.SMTPError)
  | generic

/-- The `Server` configuration fields the session reads
(`src/unnamed/part_011` lines 17-45).  Handlers are optional pure functions; `tlsConfig`
records whether a TLS configuration is present, `tlsHandshakeOK`
abstracts the outcome of the TLS handshake on this connection, and
`cramChallenge` abstracts the time-derived CRAM-MD5 challenge string. -/
structure Server where
  hostname       : GoStr
  maxMessageSize : Int
  maxRecipients  : Int
  tlsConfig      : Bool
  tlsHandshakeOK : Bool
  submissionMode : Bool
  maxInvalidCmds : Int
  cramChallenge  : GoStr
  heloHandler    : Option (GoStr → Option HErr)
  mailHandler    : Option (smtp.ReversePath → Option HErr)
  rcptHandler    : Option (smtp.ForwardPath → Option HErr)
  dataHandler    : Option (smtp.ReversePath → List smtp.ForwardPath → GoStr → Option HErr)
  resetHandler   : Bool
  vrfyHandler    : Option (GoStr → Except HErr GoStr)
  authHandler    : Option (GoStr → GoStr → GoStr → Option HErr)

/-- `session` (`session.go` lines 31-45), minus the transport handles. -/
structure Session where
  state          : SessionState
  clientHostname : GoStr
  esmtp          : Bool
  tls            : Bool
  authenticated  : Bool
  invalidCmds    : Int
  reversePath    : smtp.ReversePath
  forwardPaths   : List smtp.ForwardPath
  bdatBuffer     : GoStr
deriving DecidableEq, Repr

/-- The session as `handleConn` creates it (`session.go` lines 78-82):
Go zero values for every field but the server and connection. -/
def freshSession : Session :=
  ⟨.new, [], false, false, false, 0, smtp.zeroReversePath, [], []⟩

/-- A write the session performs: `session.reply` (code, enhanced code,
message) or `session.replyMulti` (code, lines). -/
inductive OutEv where
  | rep      (code : Int) (enh : smtp.EnhancedCode) (msg : GoStr)
  | repMulti (code : Int) (lines : List GoStr)
deriving DecidableEq, Repr

/-- The reply code of an output event. -/
def OutEv.code : OutEv → Int
  | .rep c _ _ => c
  | .repMulti c _ => c

/-- The single line `session.reply` builds (`session.go` lines 169-177):
`"enhanced message"` when the enhanced code is nonzero, the bare message
otherwise. -/
def replyLine (enhanced : smtp.EnhancedCode) (msg : GoStr) : GoStr :=
  if ¬enhanced.IsZero then enhanced.render ++ [32] ++ msg else msg

/-- The bytes `session.reply` puts on the wire: its single line passed
through `Conn.WriteReply`. -/
def replyWire (code : Int) (enhanced : smtp.EnhancedCode) (msg : GoStr) : GoStr :=
  textproto.writeReply code [replyLine enhanced msg]

/-- `session.resetTransaction` (`session.go` lines 731-739).  The
`OnReset` callback returns nothing, so only the field clearing is
observable here. -/
def resetTransaction (sess : Session) : Session :=
  { sess with reversePath := smtp.zeroReversePath, forwardPaths := [], bdatBuffer := [] }

/-- `handleEHLO` (`session.go` lines 185-233). -/
def handleEHLO (srv : Server) (sess : Session) (args : GoStr) : Session × List OutEv :=
  if args = [] then
    (sess, [.rep 501 ⟨5, 5, 2⟩ (bytesOf "EHLO requires a hostname")])
  else
    match (match srv.heloHandler with | some h => h args | none => none) with
    | some (.smtpE e) => (sess, [.rep e.Code e.EnhancedCode e.Message])
    | some .generic => (sess, [.rep 451 ⟨4, 4, 0⟩ (bytesOf "Internal error")])
    | none =>
      let sess := resetTransaction sess
      let sess := { sess with clientHostname := args, esmtp := true, state := .greeted }
      let lines :=
        [srv.hostname ++ bytesOf " Hello " ++ args] ++
        (if srv.maxMessageSize > 0 then
          [bytesOf "SIZE " ++ textproto.intDecimal srv.maxMessageSize] else []) ++
        [bytesOf "PIPELINING", bytesOf "8BITMIME", bytesOf "ENHANCEDSTATUSCODES",
         bytesOf "DSN", bytesOf "SMTPUTF8", bytesOf "CHUNKING"] ++
        (if srv.tlsConfig ∧ ¬sess.tls then [bytesOf "STARTTLS"] else []) ++
        (if srv.authHandler.isSome ∧ ¬sess.authenticated then
          [bytesOf "AUTH PLAIN LOGIN CRAM-MD5"] else [])
      (sess, [.repMulti 250 lines])

/-- `handleHELO` (`session.go` lines 236-259). -/
def handleHELO (srv : Server) (sess : Session) (args : GoStr) : Session × List OutEv :=
  if args = [] then
    (sess, [.rep 501 ⟨5, 5, 2⟩ (bytesOf "HELO requires a hostname")])
  else
    match (match srv.heloHandler with | some h => h args | none => none) with
    | some (.smtpE e) => (sess, [.rep e.Code e.EnhancedCode e.Message])
    | some .generic => (sess, [.rep 451 ⟨4, 4, 0⟩ (bytesOf "Internal error")])
    | none =>
      let sess := resetTransaction sess
      let sess := { sess with clientHostname := args, esmtp := false, state := .greeted }
      (sess, [.rep 250 ⟨2, 0, 0⟩ (srv.hostname ++ bytesOf " Hello " ++ args)])

/-- `handleMAIL` (`session.go` lines 262-311). -/
def handleMAIL (srv : Server) (sess : Session) (args : GoStr) : Session × List OutEv :=
  if sess.state.rank < SessionState.greeted.rank then
    (sess, [.rep 503 ⟨5, 5, 1⟩ (bytesOf "Send EHLO/HELO first")])
  else if SessionState.mail.rank ≤ sess.state.rank then
    (sess, [.rep 503 ⟨5, 5, 1⟩ (bytesOf "MAIL already specified")])
  else if srv.submissionMode ∧ ¬sess.authenticated then
    (sess, [.rep 530 ⟨5, 7, 0⟩ (bytesOf "Authentication required")])
  else if ¬ (bytesOf "FROM:").isPrefixOf (textproto.toUpperASCII args) then
    (sess, [.rep 501 ⟨5, 5, 2⟩ (bytesOf "Syntax: MAIL FROM:<address>")])
  else
    let pathAndParams := args.drop 5
    let pathStr := textproto.goTrimSpace (textproto.cutByte 32 pathAndParams).1
    match smtp.ParseReversePath pathStr with
    | none => (sess, [.rep 501 ⟨5, 1, 7⟩ (bytesOf "Invalid sender address")])
    | some reversePath =>
      match (match srv.mailHandler with | some h => h reversePath | none => none) with
      | some (.smtpE e) => (sess, [.rep e.Code e.EnhancedCode e.Message])
      | some .generic => (sess, [.rep 451 ⟨4, 4, 0⟩ (bytesOf "Internal error")])
      | none =>
        let sess := { sess with reversePath := reversePath, forwardPaths := [],
                                state := .mail }
        (sess, [.rep 250 ⟨2, 1, 0⟩ (bytesOf "Originator ok")])

/-- `handleRCPT` (`session.go` lines 314-359). -/
def handleRCPT (srv : Server) (sess : Session) (args : GoStr) : Session × List OutEv :=
  if sess.state.rank < SessionState.mail.rank then
    (sess, [.rep 503 ⟨5, 5, 1⟩ (bytesOf "Send MAIL first")])
  else if srv.maxRecipients ≤ (sess.forwardPaths.length : Int) then
    (sess, [.rep 452 ⟨5, 5, 3⟩ (bytesOf "Too many recipients")])
  else if ¬ (bytesOf "TO:").isPrefixOf (textproto.toUpperASCII args) then
    (sess, [.rep 501 ⟨5, 5, 2⟩ (bytesOf "Syntax: RCPT TO:<address>")])
  else
    let pathAndParams := args.drop 3
    let pathStr := textproto.goTrimSpace (textproto.cutByte 32 pathAndParams).1
    match smtp.ParseForwardPath pathStr with
    | none => (sess, [.rep 501 ⟨5, 1, 3⟩ (bytesOf "Invalid recipient address")])
    | some forwardPath =>
      match (match srv.rcptHandler with | some h => h forwardPath | none => none) with
      | some (.smtpE e) => (sess, [.rep e.Code e.EnhancedCode e.Message])
      | some .generic => (sess, [.rep 451 ⟨4, 4, 0⟩ (bytesOf "Internal error")])
      | none =>
        let sess := { sess with forwardPaths := sess.forwardPaths ++ [forwardPath] }
        let sess := if sess.state.rank < SessionState.rcpt.rank then
          { sess with state := .rcpt } else sess
        (sess, [.rep 250 ⟨2, 1, 5⟩ (bytesOf "Recipient ok")])

/-- `handleDATA` (`session.go` lines 362-397): reply 354, read the
dot-stuffed body (the handler observes the decoded bytes; the server
drains up to the terminator either way), reply, and reset the
transaction.  Returns the remaining connection input. -/
def handleDATA (srv : Server) (sess : Session) (input : List Nat) :
    Session × List OutEv × List Nat :=
  if sess.state.rank < SessionState.rcpt.rank then
    (sess, [.rep 503 ⟨5, 5, 1⟩ (bytesOf "Send RCPT first")], input)
  else
    let ev354 : OutEv := .rep 354 ⟨0, 0, 0⟩ (bytesOf "Start mail input; end with <CRLF>.<CRLF>")
    let sess := { sess with state := .data }
    let r := textproto.dotReaderRead .beginLine input (input.length + 1)
    let finish : Session := { resetTransaction sess with state := .greeted }
    match (match srv.dataHandler with
           | some h => h sess.reversePath sess.forwardPaths r.emitted
           | none => none) with
    | some (.smtpE e) => (finish, [ev354, .rep e.Code e.EnhancedCode e.Message], r.rest)
    | some .generic => (finish, [ev354, .rep 451 ⟨4, 4, 0⟩ (bytesOf "Internal error")], r.rest)
    | none => (finish, [ev354, .rep 250 ⟨2, 0, 0⟩ (bytesOf "Message accepted")], r.rest)

/-- `handleBDAT` (`session.go` lines 400-455): parse `<size> [LAST]`,
read exactly `size` raw bytes into the BDAT buffer, and on LAST deliver
the buffer to the data handler.  A short read (connection closed
mid-chunk) logs and returns with no reply. -/
def handleBDAT (srv : Server) (sess : Session) (args : GoStr) (input : List Nat) :
    Session × List OutEv × List Nat :=
  if sess.state.rank < SessionState.rcpt.rank then
    (sess, [.rep 503 ⟨5, 5, 1⟩ (bytesOf "Send RCPT first")], input)
  else
    match textproto.splitFields args with
    | [] => (sess, [.rep 501 ⟨5, 5, 2⟩ (bytesOf "Syntax: BDAT <size> [LAST]")], input)
    | part0 :: parts1 =>
      match scanSize part0 with
      | none => (sess, [.rep 501 ⟨5, 5, 2⟩ (bytesOf "Invalid BDAT size")], input)
      | some size =>
        if size < 0 then
          (sess, [.rep 501 ⟨5, 5, 2⟩ (bytesOf "Invalid BDAT size")], input)
        else
          let last : Bool := match parts1 with
            | p1 :: _ => textproto.toUpperASCII p1 = bytesOf "LAST"
            | [] => false
          if (input.length : Int) < size then
            (sess, [], [])  -- io.ReadFull fails; handleBDAT returns, logging only
          else
            let chunk := input.take size.toNat
            let rest := input.drop size.toNat
            let sess := { sess with bdatBuffer := sess.bdatBuffer ++ chunk }
            let finish : Session := { resetTransaction sess with state := .greeted }
            if last then
              match (match srv.dataHandler with
                     | some h => h sess.reversePath sess.forwardPaths sess.bdatBuffer
                     | none => none) with
              | some (.smtpE e) => (finish, [.rep e.Code e.EnhancedCode e.Message], rest)
              | some .generic => (finish, [.rep 451 ⟨4, 4, 0⟩ (bytesOf "Internal error")], rest)
              | none => (finish, [.rep 250 ⟨2, 0, 0⟩ (bytesOf "Message accepted")], rest)
            else
              (sess, [.rep 250 ⟨2, 0, 0⟩
                (textproto.intDecimal size ++ bytesOf " bytes received")], rest)
where
  /-- `fmt.Sscanf(s, "%d", &size)`: an optional sign and a nonempty
  digit prefix; trailing bytes are left unread. -/
  scanSize (s : GoStr) : Option Int :=
    match s with
    | 45 :: ds =>
      (if (ds.takeWhile fun d => 48 ≤ d ∧ d ≤ 57) = [] then none
       else textproto.atoiDigits 0 (ds.takeWhile fun d => 48 ≤ d ∧ d ≤ 57)).map (- ·)
    | 43 :: ds =>
      if (ds.takeWhile fun d => 48 ≤ d ∧ d ≤ 57) = [] then none
      else textproto.atoiDigits 0 (ds.takeWhile fun d => 48 ≤ d ∧ d ≤ 57)
    | ds =>
      if (ds.takeWhile fun d => 48 ≤ d ∧ d ≤ 57) = [] then none
      else textproto.atoiDigits 0 (ds.takeWhile fun d => 48 ≤ d ∧ d ≤ 57)

/-- `handleRSET` (`session.go` lines 458-464). -/
def handleRSET (srv : Server) (sess : Session) : Session × List OutEv :=
  let sess := resetTransaction sess
  let sess := if SessionState.greeted.rank < sess.state.rank then
    { sess with state := .greeted } else sess
  (sess, [.rep 250 ⟨2, 0, 0⟩ (bytesOf "Reset ok")])

/-- `handleNOOP` (`session.go` lines 467-469). -/
def handleNOOP (sess : Session) : Session × List OutEv :=
  (sess, [.rep 250 ⟨2, 0, 0⟩ (bytesOf "OK")])

/-- `handleQUIT` (`session.go` lines 472-474). -/
def handleQUIT (srv : Server) (sess : Session) : Session × List OutEv :=
  (sess, [.rep 221 ⟨2, 0, 0⟩ (srv.hostname ++ bytesOf " closing connection")])

/-- `handleVRFY` (`session.go` lines 477-493). -/
def handleVRFY (srv : Server) (sess : Session) (args : GoStr) : Session × List OutEv :=
  match srv.vrfyHandler with
  | some h =>
    match h args with
    | .error (.smtpE e) => (sess, [.rep e.Code e.EnhancedCode e.Message])
    | .error .generic => (sess, [.rep 451 ⟨4, 4, 0⟩ (bytesOf "Internal error")])
    | .ok result => (sess, [.rep 250 ⟨2, 0, 0⟩ result])
  | none =>
    (sess, [.rep 252 ⟨2, 0, 0⟩ (bytesOf "Cannot VRFY user, but will accept message")])

/-- `handleSTARTTLS` (`session.go` lines 698-728): available only with a
TLS config and on a non-TLS connection; replies 220, performs the
handshake, and on success replaces the connection, sets the TLS flag,
resets the transaction, and returns the state to New with the client
name and ESMTP flag cleared.  The authenticated flag and the
invalid-command counter are left untouched. -/
def handleSTARTTLS (srv : Server) (sess : Session) : Session × List OutEv × Bool :=
  if ¬srv.tlsConfig then
    (sess, [.rep 502 ⟨5, 5, 1⟩ (bytesOf "STARTTLS not available")], false)
  else if sess.tls then
    (sess, [.rep 503 ⟨5, 5, 1⟩ (bytesOf "Already running TLS")], false)
  else
    let ev220 : OutEv := .rep 220 ⟨0, 0, 0⟩ (bytesOf "Ready to start TLS")
    if ¬srv.tlsHandshakeOK then
      (sess, [ev220], false)
    else
      let sess := { sess with tls := true }
      let sess := resetTransaction sess
      let sess := { sess with state := .new, clientHostname := [], esmtp := false }
      (sess, [ev220], true)

/-- `authPLAIN` (`session.go` lines 531-579).  `input` is the connection
byte stream, read when the AUTH line carried no initial response; the
returned stream is what is left for the command loop.  When a read
fails, the source returns with the stream in error; the model returns
the empty stream, which makes the next loop read fail the same way. -/
def authPLAIN (srv : Server) (sess : Session) (initialResp : GoStr) (input : List Nat) :
    Session × List OutEv × List Nat :=
  if initialResp ≠ [] ∧ initialResp ≠ bytesOf "=" then
    match smtp.base64Decode initialResp with
    | none => (sess, [.rep 501 ⟨5, 5, 2⟩ (bytesOf "Invalid base64")], input)
    | some decoded => authPLAINVerify srv sess decoded input
  else
    let ev334 : OutEv := .rep 334 ⟨0, 0, 0⟩ []
    match textproto.readLine 512 input with
    | .error _ => (sess, [ev334], [])
    | .ok (line, rest) =>
      if line = [42] then
        (sess, [ev334, .rep 501 ⟨5, 5, 1⟩ (bytesOf "Authentication cancelled")], rest)
      else
        match smtp.base64Decode line with
        | none => (sess, [ev334, .rep 501 ⟨5, 5, 2⟩ (bytesOf "Invalid base64")], rest)
        | some decoded =>
          let r := authPLAINVerify srv sess decoded rest
          (r.1, ev334 :: r.2.1, r.2.2)
where
  /-- `session.go` lines 559-578: split the decoded bytes on NUL into
  `[authzid, authcid, passwd]` and call the authentication handler with
  the second and third fields. -/
  authPLAINVerify (srv : Server) (sess : Session) (decoded : GoStr) (rest : List Nat) :
      Session × List OutEv × List Nat :=
    match smtp.splitNull decoded with
    | [_, username, password] =>
      match (match srv.authHandler with
             | some h => some (h (bytesOf "PLAIN") username password)
             | none => none) with
      | none => (sess, [], rest)  -- unreachable: handleAUTH guards authHandler
      | some (some (.smtpE e)) => (sess, [.rep e.Code e.EnhancedCode e.Message], rest)
      | some (some .generic) =>
        (sess, [.rep 535 ⟨5, 7, 8⟩ (bytesOf "Authentication failed")], rest)
      | some none =>
        ({ sess with authenticated := true },
         [.rep 235 ⟨2, 0, 0⟩ (bytesOf "Authentication successful")], rest)
    | _ => (sess, [.rep 501 ⟨5, 5, 2⟩ (bytesOf "Invalid PLAIN data")], rest)

/-- `authLOGIN` (`session.go` lines 582-625): challenge for the
username, then the password, then verify. -/
def authLOGIN (srv : Server) (sess : Session) (input : List Nat) :
    Session × List OutEv × List Nat :=
  let evUser : OutEv := .rep 334 ⟨0, 0, 0⟩ (smtp.base64Encode (bytesOf "Username:"))
  match textproto.readLine 512 input with
  | .error _ => (sess, [evUser], [])
  | .ok (userLine, rest1) =>
    if userLine = [42] then
      (sess, [evUser, .rep 501 ⟨5, 5, 1⟩ (bytesOf "Authentication cancelled")], rest1)
    else
      match smtp.base64Decode userLine with
      | none => (sess, [evUser, .rep 501 ⟨5, 5, 2⟩ (bytesOf "Invalid base64")], rest1)
      | some userBytes =>
        let evPass : OutEv := .rep 334 ⟨0, 0, 0⟩ (smtp.base64Encode (bytesOf "Password:"))
        match textproto.readLine 512 rest1 with
        | .error _ => (sess, [evUser, evPass], [])
        | .ok (passLine, rest2) =>
          if passLine = [42] then
            (sess, [evUser, evPass,
              .rep 501 ⟨5, 5, 1⟩ (bytesOf "Authentication cancelled")], rest2)
          else
            match smtp.base64Decode passLine with
            | none =>
              (sess, [evUser, evPass, .rep 501 ⟨5, 5, 2⟩ (bytesOf "Invalid base64")], rest2)
            | some passBytes =>
              match (match srv.authHandler with
                     | some h => some (h (bytesOf "LOGIN") userBytes passBytes)
                     | none => none) with
              | none => (sess, [evUser, evPass], rest2)  -- unreachable
              | some (some (.smtpE e)) =>
                (sess, [evUser, evPass, .rep e.Code e.EnhancedCode e.Message], rest2)
              | some (some .generic) =>
                (sess, [evUser, evPass,
                  .rep 535 ⟨5, 7, 8⟩ (bytesOf "Authentication failed")], rest2)
              | some none =>
                ({ sess with authenticated := true },
                 [evUser, evPass,
                  .rep 235 ⟨2, 0, 0⟩ (bytesOf "Authentication successful")], rest2)

/-- `authCRAMMD5` (`session.go` lines 628-672): send the (time-derived,
here abstracted) challenge, split the response at the last space into
username and digest, and pass `challenge:digest` as the password. -/
def authCRAMMD5 (srv : Server) (sess : Session) (input : List Nat) :
    Session × List OutEv × List Nat :=
  let challenge := srv.cramChallenge
  let evCh : OutEv := .rep 334 ⟨0, 0, 0⟩ (smtp.base64Encode challenge)
  match textproto.readLine 512 input with
  | .error _ => (sess, [evCh], [])
  | .ok (line, rest) =>
    if line = [42] then
      (sess, [evCh, .rep 501 ⟨5, 5, 1⟩ (bytesOf "Authentication cancelled")], rest)
    else
      match smtp.base64Decode line with
      | none => (sess, [evCh, .rep 501 ⟨5, 5, 2⟩ (bytesOf "Invalid base64")], rest)
      | some decoded =>
        match textproto.lastIndexOfByte 32 decoded with
        | none =>
          (sess, [evCh, .rep 501 ⟨5, 5, 2⟩ (bytesOf "Invalid CRAM-MD5 response")], rest)
        | some spaceIdx =>
          let username := decoded.take spaceIdx
          let digest := decoded.drop (spaceIdx + 1)
          let password := challenge ++ 58 :: digest
          match (match srv.authHandler with
                 | some h => some (h (bytesOf "CRAM-MD5") username password)
                 | none => none) with
          | none => (sess, [evCh], rest)  -- unreachable
          | some (some (.smtpE e)) =>
            (sess, [evCh, .rep e.Code e.EnhancedCode e.Message], rest)
          | some (some .generic) =>
            (sess, [evCh, .rep 535 ⟨5, 7, 8⟩ (bytesOf "Authentication failed")], rest)
          | some none =>
            ({ sess with authenticated := true },
             [evCh, .rep 235 ⟨2, 0, 0⟩ (bytesOf "Authentication successful")], rest)

/-- `handleAUTH` (`session.go` lines 496-528). -/
def handleAUTH (srv : Server) (sess : Session) (args : GoStr) (input : List Nat) :
    Session × List OutEv × List Nat :=
  if srv.authHandler.isNone then
    (sess, [.rep 502 ⟨5, 5, 1⟩ (bytesOf "AUTH not available")], input)
  else if sess.state.rank < SessionState.greeted.rank then
    (sess, [.rep 503 ⟨5, 5, 1⟩ (bytesOf "Send EHLO/HELO first")], input)
  else if SessionState.mail.rank ≤ sess.state.rank then
    (sess, [.rep 503 ⟨5, 5, 1⟩ (bytesOf "AUTH not allowed during mail transaction")], input)
  else if sess.authenticated then
    (sess, [.rep 503 ⟨5, 5, 1⟩ (bytesOf "Already authenticated")], input)
  else
    let cut := textproto.cutByte 32 args
    let mechanism := textproto.toUpperASCII cut.1
    let initialResp := cut.2.1
    if mechanism = bytesOf "PLAIN" then authPLAIN srv sess initialResp input
    else if mechanism = bytesOf "LOGIN" then authLOGIN srv sess input
    else if mechanism = bytesOf "CRAM-MD5" then authCRAMMD5 srv sess input
    else
      (sess, [.rep 501 ⟨5, 5, 4⟩ (bytesOf "Unrecognized authentication mechanism")], input)

/-- `parseCommand` (`session.go` lines 162-166). -/
def parseCommand (line : GoStr) : GoStr × GoStr :=
  let c := textproto.cutByte 32 line
  (textproto.toUpperASCII c.1, c.2.1)

/-- One iteration of the command loop of `handleConn`
(`session.go` lines 93-158): read a line, reject NUL bytes, dispatch on
the uppercased verb, count invalid commands against the cap.  Returns
the session, the replies written, the remaining connection input, and
whether the loop continues.  The shutdown check and the read deadline
are connection-level concerns outside this model; a read error ends the
loop as in the source. -/
def sessionStep (srv : Server) (sess : Session) (input : List Nat) :
    Session × List OutEv × List Nat × Bool :=
  match textproto.readLine 512 input with
  | .error _ => (sess, [], [], false)
  | .ok (line, rest) =>
    if 0 ∈ line then
      let sess := { sess with invalidCmds := sess.invalidCmds + 1 }
      let evs := [OutEv.rep 500 ⟨5, 5, 1⟩ (bytesOf "NUL not allowed in commands")]
      if srv.maxInvalidCmds > 0 ∧ srv.maxInvalidCmds ≤ sess.invalidCmds then
        (sess, evs ++ [.rep 421 ⟨4, 4, 0⟩ (bytesOf "Too many errors, closing connection")],
         rest, false)
      else
        (sess, evs, rest, true)
    else
      let pc := parseCommand line
      let verb := pc.1
      let args := pc.2
      if verb = bytesOf "EHLO" then
        let r := handleEHLO srv sess args; (r.1, r.2, rest, true)
      else if verb = bytesOf "HELO" then
        let r := handleHELO srv sess args; (r.1, r.2, rest, true)
      else if verb = bytesOf "MAIL" then
        let r := handleMAIL srv sess args; (r.1, r.2, rest, true)
      else if verb = bytesOf "RCPT" then
        let r := handleRCPT srv sess args; (r.1, r.2, rest, true)
      else if verb = bytesOf "DATA" then
        let r := handleDATA srv sess rest; (r.1, r.2.1, r.2.2, true)
      else if verb = bytesOf "RSET" then
        let r := handleRSET srv sess; (r.1, r.2, rest, true)
      else if verb = bytesOf "NOOP" then
        let r := handleNOOP sess; (r.1, r.2, rest, true)
      else if verb = bytesOf "QUIT" then
        let r := handleQUIT srv sess; (r.1, r.2, rest, false)
      else if verb = bytesOf "VRFY" then
        let r := handleVRFY srv sess args; (r.1, r.2, rest, true)
      else if verb = bytesOf "EXPN" then
        (sess, [.rep 502 ⟨5, 5, 1⟩ (bytesOf "EXPN not implemented")], rest, true)
      else if verb = bytesOf "STARTTLS" then
        let r := handleSTARTTLS srv sess; (r.1, r.2.1, rest, true)
      else if verb = bytesOf "AUTH" then
        let r := handleAUTH srv sess args rest; (r.1, r.2.1, r.2.2, true)
      else if verb = bytesOf "BDAT" then
        let r := handleBDAT srv sess args rest; (r.1, r.2.1, r.2.2, true)
      else
        let sess := { sess with invalidCmds := sess.invalidCmds + 1 }
        let evs := [OutEv.rep 500 ⟨5, 5, 1⟩ (bytesOf "Command not recognized")]
        if srv.maxInvalidCmds > 0 ∧ srv.maxInvalidCmds ≤ sess.invalidCmds then
          (sess, evs ++ [.rep 421 ⟨4, 4, 0⟩ (bytesOf "Too many errors, closing connection")],
           rest, false)
        else
          (sess, evs, rest, true)

/-- The command loop of `handleConn`, iterated over the connection
input.  `fuel` bounds the number of commands processed; every theorem
below supplies enough fuel for its input, so the bound is never the
reason a run stops. -/
def runSession : Nat → Server → Session → List Nat → Session × List OutEv
  | 0, _, sess, _ => (sess, [])
  | fuel + 1, srv, sess, input =>
    let r := sessionStep srv sess input
    if r.2.2.2 then
      let r2 := runSession fuel srv r.1 r.2.2.1
      (r2.1, r.2.1 ++ r2.2)
    else
      (r.1, r.2.1)

/-- The wire bytes an output event produces. -/
def OutEv.wire : OutEv → GoStr
  | .rep c e m => replyWire c e m
  | .repMulti c ls => textproto.writeReply c ls

/-- A server with no TLS, no handlers, and the default limits. -/
def srvPlain : Server :=
  ⟨bytesOf "mail.test", 10485760, 100, false, false, false, 10, [],
   none, none, none, none, false, none, none⟩

/-- A server with a TLS configuration whose handshakes succeed. -/
def srvTLS : Server := { srvPlain with tlsConfig := true, tlsHandshakeOK := true }

/-- A mid-conversation session: greeted over ESMTP, authenticated, three
invalid commands counted, a transaction in progress. -/
def sessLoaded : Session :=
  ⟨.greeted, bytesOf "client.example", true, false, true, 3,
   ⟨⟨bytesOf "a", bytesOf "b.c"⟩, false⟩, [⟨⟨bytesOf "r", bytesOf "d.e"⟩⟩], bytesOf "buf"⟩

/-- Claim C2: after a successful STARTTLS upgrade every session flag and
field except the TLS flag is supposed to be wiped — including the
authenticated flag and the invalid-command counter
(docs/explanation/security.md: any prior authentication or transaction
state is cleared).  The code resets the transaction sub-state, the
client hostname, the ESMTP flag and the state, but leaves
`authenticated` and `invalidCmds` untouched. -/
theorem C2_starttls_preserves_auth :
    handleSTARTTLS srvTLS sessLoaded =
      (⟨.new, [], false, true, true, 3, smtp.zeroReversePath, [], []⟩,
       [.rep 220 ⟨0, 0, 0⟩ (bytesOf "Ready to start TLS")], true) ∧
    (handleSTARTTLS srvTLS sessLoaded).1.authenticated = true ∧
    (handleSTARTTLS srvTLS sessLoaded).1.invalidCmds = 3 := by
  decide

/-- A session in state Mail on a plaintext connection. -/
def sessMailState : Session := { freshSession with state := .mail }

/-- Claim C3, as stated, is false: three commands outside the allowed
set of their state do not draw 503 — STARTTLS in state Mail is accepted
with 220 (the code never checks the state), EXPN in state New draws
502, and VRFY in state New is answered 252. -/
theorem C3_state_machine_counterexample :
    (sessionStep srvTLS sessMailState (bytesOf "STARTTLS\r\n")).2.1 =
      [.rep 220 ⟨0, 0, 0⟩ (bytesOf "Ready to start TLS")] ∧
    (sessionStep srvPlain freshSession (bytesOf "EXPN\r\n")).2.1 =
      [.rep 502 ⟨5, 5, 1⟩ (bytesOf "EXPN not implemented")] ∧
    (sessionStep srvPlain freshSession (bytesOf "VRFY x\r\n")).2.1 =
      [.rep 252 ⟨2, 0, 0⟩ (bytesOf "Cannot VRFY user, but will accept message")] := by
  decide

/-- Claim C3 (amended): the state machine answers 503 with enhanced
5.5.1 for the state-gated commands — MAIL outside Greeted, RCPT before
Mail, DATA and BDAT before Rcpt, and AUTH (when configured) before
Greeted or at/after Mail.  STARTTLS, VRFY and EXPN carry no state check
at all, in every state: with TLS configured on a non-TLS connection,
STARTTLS is answered 220 whatever the state; VRFY is answered with 252
when no handler is configured and its replies never depend on the
state; and EXPN always draws 502 (see the counterexample). -/
theorem C3_state_machine_503 (srv : Server) (sess : Session) (args : GoStr)
    (input : List Nat) :
    (sess.state.rank < SessionState.greeted.rank →
      handleMAIL srv sess args =
        (sess, [.rep 503 ⟨5, 5, 1⟩ (bytesOf "Send EHLO/HELO first")])) ∧
    (SessionState.mail.rank ≤ sess.state.rank →
      handleMAIL srv sess args =
        (sess, [.rep 503 ⟨5, 5, 1⟩ (bytesOf "MAIL already specified")])) ∧
    (sess.state.rank < SessionState.mail.rank →
      handleRCPT srv sess args =
        (sess, [.rep 503 ⟨5, 5, 1⟩ (bytesOf "Send MAIL first")])) ∧
    (sess.state.rank < SessionState.rcpt.rank →
      handleDATA srv sess input =
        (sess, [.rep 503 ⟨5, 5, 1⟩ (bytesOf "Send RCPT first")], input)) ∧
    (sess.state.rank < SessionState.rcpt.rank →
      handleBDAT srv sess args input =
        (sess, [.rep 503 ⟨5, 5, 1⟩ (bytesOf "Send RCPT first")], input)) ∧
    (srv.authHandler.isSome → sess.state.rank < SessionState.greeted.rank →
      handleAUTH srv sess args input =
        (sess, [.rep 503 ⟨5, 5, 1⟩ (bytesOf "Send EHLO/HELO first")], input)) ∧
    (srv.authHandler.isSome → SessionState.mail.rank ≤ sess.state.rank →
      handleAUTH srv sess args input =
        (sess, [.rep 503 ⟨5, 5, 1⟩
          (bytesOf "AUTH not allowed during mail transaction")], input)) ∧
    (srv.tlsConfig = true → sess.tls = false →
      (handleSTARTTLS srv sess).2.1 =
        [.rep 220 ⟨0, 0, 0⟩ (bytesOf "Ready to start TLS")]) ∧
    (srv.vrfyHandler = none →
      handleVRFY srv sess args =
        (sess, [.rep 252 ⟨2, 0, 0⟩ (bytesOf "Cannot VRFY user, but will accept message")])) ∧
    (∀ s : SessionState,
      (handleVRFY srv { sess with state := s } args).2 = (handleVRFY srv sess args).2) ∧
    ((sessionStep srv sess (bytesOf "EXPN\r\n")).2.1 =
      [.rep 502 ⟨5, 5, 1⟩ (bytesOf "EXPN not implemented")]) := by
  refine ⟨?_, ?_, ?_, ?_, ?_, ?_, ?_, ?_, ?_, ?_, ?_⟩
  · intro h; rw [handleMAIL, if_pos h]
  · intro h
    rw [handleMAIL, if_neg (by simp only [SessionState.rank] at h ⊢; omega), if_pos h]
  · intro h; rw [handleRCPT, if_pos h]
  · intro h; rw [handleDATA, if_pos h]
  · intro h; rw [handleBDAT, if_pos h]
  · intro hh h
    have : srv.authHandler.isNone = false := by
      cases hah : srv.authHandler <;> simp [hah] at hh ⊢
    rw [handleAUTH, if_neg (by simp [this]), if_pos h]
  · intro hh h
    have : srv.authHandler.isNone = false := by
      cases hah : srv.authHandler <;> simp [hah] at hh ⊢
    rw [handleAUTH, if_neg (by simp [this]),
      if_neg (by simp only [SessionState.rank] at h ⊢; omega), if_pos h]
  · intro ht htls
    rw [handleSTARTTLS, if_neg (by simp [ht]), if_neg (by simp [htls])]
    rcases Classical.em srv.tlsHandshakeOK with h | h
    · simp [h]
    · simp [h]
  · intro hv
    simp [handleVRFY, hv]
  · intro s
    cases hv : srv.vrfyHandler with
    | none => simp [handleVRFY, hv]
    | some f =>
      simp only [handleVRFY, hv]
      cases hfa : f args with
      | ok r => simp [hfa]
      | error e => cases e <;> simp [hfa]
  · rfl

/-- A server whose auth handler accepts everything. -/
def authAccept : GoStr → GoStr → GoStr → Option HErr := fun _ _ _ => none

/-- `srvPlain` with the always-accepting auth handler installed. -/
def srvAuth : Server := { srvPlain with authHandler := some authAccept }

/-- Witness for C3 (amended): each gated command evaluated out of state
at concrete inputs, and the ungated commands evaluated at concrete
states outside their spec-table rows. -/
theorem C3_state_machine_503_witness :
    handleMAIL srvPlain freshSession (bytesOf "FROM:<a@b.c>") =
      (freshSession, [.rep 503 ⟨5, 5, 1⟩ (bytesOf "Send EHLO/HELO first")]) ∧
    handleRCPT srvPlain freshSession (bytesOf "TO:<a@b.c>") =
      (freshSession, [.rep 503 ⟨5, 5, 1⟩ (bytesOf "Send MAIL first")]) ∧
    handleDATA srvPlain freshSession [] =
      (freshSession, [.rep 503 ⟨5, 5, 1⟩ (bytesOf "Send RCPT first")], []) ∧
    handleBDAT srvPlain freshSession (bytesOf "4 LAST") [] =
      (freshSession, [.rep 503 ⟨5, 5, 1⟩ (bytesOf "Send RCPT first")], []) ∧
    handleAUTH srvAuth freshSession (bytesOf "PLAIN") [] =
      (freshSession, [.rep 503 ⟨5, 5, 1⟩ (bytesOf "Send EHLO/HELO first")], []) ∧
    handleAUTH srvAuth sessMailState (bytesOf "PLAIN") [] =
      (sessMailState,
       [.rep 503 ⟨5, 5, 1⟩ (bytesOf "AUTH not allowed during mail transaction")], []) ∧
    (handleSTARTTLS srvTLS sessMailState).2.1 =
      [.rep 220 ⟨0, 0, 0⟩ (bytesOf "Ready to start TLS")] ∧
    handleVRFY srvPlain sessMailState (bytesOf "x") =
      (sessMailState,
       [.rep 252 ⟨2, 0, 0⟩ (bytesOf "Cannot VRFY user, but will accept message")]) ∧
    (handleVRFY srvPlain { freshSession with state := .rcpt } (bytesOf "x")).2 =
      (handleVRFY srvPlain freshSession (bytesOf "x")).2 ∧
    (sessionStep srvPlain sessMailState (bytesOf "EXPN\r\n")).2.1 =
      [.rep 502 ⟨5, 5, 1⟩ (bytesOf "EXPN not implemented")] := by
  refine ⟨?_, ?_, ?_, ?_, ?_, ?_, ?_, ?_, ?_, ?_⟩
  · exact (C3_state_machine_503 srvPlain freshSession _ []).1 (by decide)
  · exact (C3_state_machine_503 srvPlain freshSession _ []).2.2.1 (by decide)
  · exact (C3_state_machine_503 srvPlain freshSession [] []).2.2.2.1 (by decide)
  · exact (C3_state_machine_503 srvPlain freshSession _ []).2.2.2.2.1 (by decide)
  · exact (C3_state_machine_503 srvAuth freshSession _ []).2.2.2.2.2.1 (by decide) (by decide)
  · exact (C3_state_machine_503 srvAuth sessMailState _ []).2.2.2.2.2.2.1 (by decide) (by decide)
  · exact (C3_state_machine_503 srvTLS sessMailState [] []).2.2.2.2.2.2.2.1 rfl rfl
  · exact (C3_state_machine_503 srvPlain sessMailState (bytesOf "x") []).2.2.2.2.2.2.2.2.1 rfl
  · exact (C3_state_machine_503 srvPlain freshSession (bytesOf "x") []).2.2.2.2.2.2.2.2.2.1 .rcpt
  · exact (C3_state_machine_503 srvPlain sessMailState [] []).2.2.2.2.2.2.2.2.2.2

/-- `srvPlain` with the invalid-command cap set to 2. -/
def srvCap2 : Server := { srvPlain with maxInvalidCmds := 2 }

/-- Claim C4: sequence errors (503 with enhanced 5.5.1) are supposed to
count toward the invalid-command cap
(docs/how-to/connection-limiting.md: unrecognized *or out-of-sequence*
commands).  They do not: with the cap at 2, three out-of-state MAIL
commands each draw 503 5.5.1, the counter stays at 0, and no 421
disconnect ever happens. -/
theorem C4_sequence_errors_uncounted :
    runSession 4 srvCap2 freshSession
        (bytesOf "MAIL FROM:<a@b.c>\r\nMAIL FROM:<a@b.c>\r\nMAIL FROM:<a@b.c>\r\n") =
      (freshSession,
       List.replicate 3 (.rep 503 ⟨5, 5, 1⟩ (bytesOf "Send EHLO/HELO first"))) ∧
    freshSession.invalidCmds = 0 ∧
    ∀ ev ∈ (runSession 4 srvCap2 freshSession
        (bytesOf "MAIL FROM:<a@b.c>\r\nMAIL FROM:<a@b.c>\r\nMAIL FROM:<a@b.c>\r\n")).2,
      ev.code ≠ 421 := by
  decide

/-- The session in state Greeted as a fresh EHLO leaves it. -/
def sessGreeted : Session := { freshSession with state := .greeted }

/-- The concrete multi-line handler rejection used for claim C5. -/
def multiErr : smtp.SMTPError := ⟨550, ⟨5, 7, 1⟩, bytesOf "spam detected\ntry later"⟩

/-- `srvPlain` with a mail handler that rejects with `multiErr`. -/
def srvreject : Server := { srvPlain with mailHandler := some (fun _ => some (.smtpE multiErr)) }

/-- Claim C5: a handler-returned ProtocolError with embedded newlines is
supposed to be serialized as code-dash continuation lines with the
enhanced code repeated (the format `SMTPError.WireLines` implements and
`TestSMTPError_WireLines` verifies).  The session instead passes the
message to a single `WriteReply` line, emitting the newline raw inside
one reply line — `WireLines` is never called by the session. -/
theorem C5_handler_error_not_multiline :
    (handleMAIL srvreject sessGreeted (bytesOf "FROM:<a@b.c>")).2 =
      [.rep 550 ⟨5, 7, 1⟩ (bytesOf "spam detected\ntry later")] ∧
    OutEv.wire (.rep 550 ⟨5, 7, 1⟩ (bytesOf "spam detected\ntry later")) =
      bytesOf "550 5.7.1 spam detected\ntry later\r\n" ∧
    multiErr.WireLines = bytesOf "550-5.7.1 spam detected\r\n550 5.7.1 try later\r\n" ∧
    OutEv.wire (.rep 550 ⟨5, 7, 1⟩ (bytesOf "spam detected\ntry later")) ≠
      multiErr.WireLines := by
  decide

/-! ### The invalid-command cap (claim C8) -/

/-- The verbs the dispatch switch of `handleConn` recognizes
(`session.go` lines 120-150). -/
def recognizedVerbs : List GoStr :=
  [bytesOf "EHLO", bytesOf "HELO", bytesOf "MAIL", bytesOf "RCPT", bytesOf "DATA",
   bytesOf "RSET", bytesOf "NOOP", bytesOf "QUIT", bytesOf "VRFY", bytesOf "EXPN",
   bytesOf "STARTTLS", bytesOf "AUTH", bytesOf "BDAT"]

/-- A command line the loop counts as invalid: it contains a NUL byte,
or its uppercased verb is not in the dispatch switch. -/
def invalidLine (l : GoStr) : Prop :=
  (0 : Nat) ∈ l ∨ (parseCommand l).1 ∉ recognizedVerbs

/-- A line the 512-byte command reader accepts whole: no embedded LF and
content within the limit. -/
def lineOk (l : GoStr) : Prop := (10 : Nat) ∉ l ∧ l.length ≤ 510

instance (l : GoStr) : Decidable (invalidLine l) := by
  unfold invalidLine; exact inferInstance

instance (l : GoStr) : Decidable (lineOk l) := by
  unfold lineOk; exact inferInstance

/-- CRLF-terminate and concatenate command lines into a connection
input. -/
def encodeLines (ls : List GoStr) : List Nat :=
  ls.flatMap (fun l => l ++ [13, 10])

/-- The 500 reply text an invalid line draws: the NUL rejection or the
unknown-verb rejection. -/
def msg500 (l : GoStr) : GoStr :=
  if (0 : Nat) ∈ l then bytesOf "NUL not allowed in commands"
  else bytesOf "Command not recognized"

theorem readLine_crlf (l : GoStr) (R : List Nat) (h10 : (10 : Nat) ∉ l)
    (hlen : l.length ≤ 510) :
    textproto.readLine 512 (l ++ [13, 10] ++ R) = .ok (l, R) := by
  have h13 : (10 : Nat) ∉ l ++ [13] := by
    intro hm
    rcases List.mem_append.1 hm with hm | hm
    · exact h10 hm
    · simp at hm
  have harr : l ++ [13, 10] ++ R = (l ++ [13]) ++ 10 :: R := by simp
  rw [textproto.readLine, harr, textproto.takeToLF_no_lf _ _ h13]
  dsimp only
  have hstrip : textproto.stripTrailingCR (l ++ [13]) = l := by
    simp [textproto.stripTrailingCR]
  rw [hstrip, if_neg (by omega)]

/-- One loop iteration on an invalid command line: the 500 reply, the
counter bump, and the cap check (421 and stop when reached). -/
theorem sessionStep_invalid (srv : Server) (sess : Session) (l : GoStr) (R : List Nat)
    (hinv : invalidLine l) (hok : lineOk l) :
    sessionStep srv sess (l ++ [13, 10] ++ R) =
      (if srv.maxInvalidCmds > 0 ∧ srv.maxInvalidCmds ≤ sess.invalidCmds + 1 then
        ({ sess with invalidCmds := sess.invalidCmds + 1 },
         [.rep 500 ⟨5, 5, 1⟩ (msg500 l),
          .rep 421 ⟨4, 4, 0⟩ (bytesOf "Too many errors, closing connection")], R, false)
      else
        ({ sess with invalidCmds := sess.invalidCmds + 1 },
         [.rep 500 ⟨5, 5, 1⟩ (msg500 l)], R, true)) := by
  rw [sessionStep, readLine_crlf l R hok.1 hok.2]
  by_cases h0 : (0 : Nat) ∈ l
  · simp only [msg500, if_pos h0]
    rcases Classical.em (srv.maxInvalidCmds > 0 ∧ srv.maxInvalidCmds ≤ sess.invalidCmds + 1)
      with hc | hc
    · simp [h0, hc]
    · simp [h0, hc]
  · have hv : (parseCommand l).1 ∉ recognizedVerbs := hinv.resolve_left h0
    simp only [recognizedVerbs, List.mem_cons, List.not_mem_nil, or_false,
      not_or] at hv
    obtain ⟨v1, v2, v3, v4, v5, v6, v7, v8, v9, v10, v11, v12, v13⟩ := hv
    simp only [msg500, if_neg h0]
    rcases Classical.em (srv.maxInvalidCmds > 0 ∧ srv.maxInvalidCmds ≤ sess.invalidCmds + 1)
      with hc | hc
    · simp [h0, v1, v2, v3, v4, v5, v6, v7, v8, v9, v10, v11, v12, v13, hc]
    · simp [h0, v1, v2, v3, v4, v5, v6, v7, v8, v9, v10, v11, v12, v13, hc]

/-- Runs that stay below the cap: every invalid line draws its 500, the
counter advances by one per line, and the loop neither writes 421 nor
stops. -/
theorem runSession_under_cap (srv : Server) :
    ∀ (ls : List GoStr) (sess : Session) (fuel : Nat),
      (∀ l ∈ ls, invalidLine l ∧ lineOk l) →
      ls.length ≤ fuel →
      sess.invalidCmds + ls.length < srv.maxInvalidCmds →
      runSession fuel srv sess (encodeLines ls) =
        ({ sess with invalidCmds := sess.invalidCmds + ls.length },
         ls.map (fun l => .rep 500 ⟨5, 5, 1⟩ (msg500 l))) := by
  intro ls
  induction ls with
  | nil =>
    intro sess fuel _ _ _
    cases fuel with
    | zero => simp [runSession]
    | succ f =>
      simp [runSession, sessionStep, encodeLines, textproto.readLine, textproto.takeToLF]
  | cons l tl ih =>
    intro sess fuel hall hfuel hcap
    match fuel, hfuel with
    | fuel + 1, hf =>
      have hl := hall l (List.mem_cons_self l tl)
      have henc : encodeLines (l :: tl) = l ++ [13, 10] ++ encodeLines tl := by
        simp [encodeLines]
      rw [runSession, henc, sessionStep_invalid srv sess l _ hl.1 hl.2]
      have hnc : ¬ (srv.maxInvalidCmds > 0 ∧ srv.maxInvalidCmds ≤ sess.invalidCmds + 1) := by
        intro hc
        have : sess.invalidCmds + ((l :: tl).length : Int) < srv.maxInvalidCmds := hcap
        simp only [List.length_cons] at this
        omega
      rw [if_neg hnc]
      have ihr := ih { sess with invalidCmds := sess.invalidCmds + 1 } fuel
        (fun x hx => hall x (List.mem_cons_of_mem l hx))
        (by simp only [List.length_cons] at hf; omega)
        (by simp only [List.length_cons] at hcap ⊢; push_cast at hcap ⊢; omega)
      simp only at ihr
      simp [ihr, add_assoc]
      ring_nf

/-- Runs that hit the cap exactly on the last line: every line draws its
500, the last is followed by the 421 closing reply, the loop stops, and
any bytes after the last line are never processed. -/
theorem runSession_reach_cap (srv : Server) (hK : 0 < srv.maxInvalidCmds) :
    ∀ (ls : List GoStr) (sess : Session) (fuel : Nat) (extra : List Nat),
      (∀ l ∈ ls, invalidLine l ∧ lineOk l) →
      ls ≠ [] →
      ls.length ≤ fuel →
      sess.invalidCmds + ls.length = srv.maxInvalidCmds →
      runSession fuel srv sess (encodeLines ls ++ extra) =
        ({ sess with invalidCmds := sess.invalidCmds + ls.length },
         ls.map (fun l => .rep 500 ⟨5, 5, 1⟩ (msg500 l)) ++
           [.rep 421 ⟨4, 4, 0⟩ (bytesOf "Too many errors, closing connection")]) := by
  intro ls
  induction ls with
  | nil => intro _ _ _ _ hne; exact absurd rfl hne
  | cons l tl ih =>
    intro sess fuel extra hall hne hfuel hcap
    match fuel, hfuel with
    | fuel + 1, hf =>
      have hl := hall l (List.mem_cons_self l tl)
      have henc : encodeLines (l :: tl) ++ extra = l ++ [13, 10] ++ (encodeLines tl ++ extra) := by
        simp [encodeLines]
      rw [runSession, henc, sessionStep_invalid srv sess l _ hl.1 hl.2]
      cases tl with
      | nil =>
        have hc : srv.maxInvalidCmds > 0 ∧ srv.maxInvalidCmds ≤ sess.invalidCmds + 1 := by
          constructor
          · exact hK
          · simp only [List.length_cons, List.length_nil] at hcap
            push_cast at hcap
            omega
        rw [if_pos hc]
        simp
      | cons l2 tl2 =>
        have hnc : ¬ (srv.maxInvalidCmds > 0 ∧ srv.maxInvalidCmds ≤ sess.invalidCmds + 1) := by
          intro hc
          simp only [List.length_cons] at hcap
          push_cast at hcap
          omega
        rw [if_neg hnc]
        have ihr := ih { sess with invalidCmds := sess.invalidCmds + 1 } fuel extra
          (fun x hx => hall x (List.mem_cons_of_mem l hx))
          (by simp)
          (by simp only [List.length_cons] at hf ⊢; omega)
          (by simp only [List.length_cons] at hcap ⊢; push_cast at hcap ⊢; omega)
        simp only at ihr
        simp [ihr, add_assoc]
        omega

/-- Claim C8: with `max_invalid_commands = K > 0`, a session whose first
K commands are each unrecognized or NUL-containing receives a 500 reply
to each of them; the Kth is additionally followed by the 421 closing
reply and the loop stops, ignoring any further input.  Fewer than K such
commands draw only their 500 replies and never the 421. -/
theorem C8_invalid_command_cap (K : Nat) (hK : 0 < K) (srv : Server)
    (hmax : srv.maxInvalidCmds = (K : Int)) (ls : List GoStr)
    (hinv : ∀ l ∈ ls, invalidLine l ∧ lineOk l) :
    (ls.length = K → ∀ extra : List Nat,
      runSession (K + 1) srv freshSession (encodeLines ls ++ extra) =
        ({ freshSession with invalidCmds := (K : Int) },
         ls.map (fun l => .rep 500 ⟨5, 5, 1⟩ (msg500 l)) ++
           [.rep 421 ⟨4, 4, 0⟩ (bytesOf "Too many errors, closing connection")])) ∧
    (ls.length < K →
      runSession (K + 1) srv freshSession (encodeLines ls) =
        ({ freshSession with invalidCmds := (ls.length : Int) },
         ls.map (fun l => .rep 500 ⟨5, 5, 1⟩ (msg500 l)))) := by
  constructor
  · intro hlen extra
    have hne : ls ≠ [] := by
      intro h
      rw [h] at hlen
      simp at hlen
      omega
    have := runSession_reach_cap srv (by rw [hmax]; exact_mod_cast hK) ls freshSession
      (K + 1) extra hinv hne (by omega) (by simp [freshSession, hmax, hlen])
    simpa [freshSession, hlen] using this
  · intro hlen
    have := runSession_under_cap srv ls freshSession (K + 1) hinv (by omega)
      (by simp [freshSession, hmax]; exact_mod_cast hlen)
    simpa [freshSession] using this

/-- Witness for C8: cap 2, two unknown verbs; both draw 500 and the
second is followed by 421, while a single unknown verb draws only its
500. -/
theorem C8_invalid_command_cap_witness :
    runSession 3 srvCap2 freshSession (encodeLines [bytesOf "FOO", bytesOf "BAR x"] ++ bytesOf "NOOP\r\n") =
      ({ freshSession with invalidCmds := 2 },
       [.rep 500 ⟨5, 5, 1⟩ (bytesOf "Command not recognized"),
        .rep 500 ⟨5, 5, 1⟩ (bytesOf "Command not recognized"),
        .rep 421 ⟨4, 4, 0⟩ (bytesOf "Too many errors, closing connection")]) ∧
    runSession 3 srvCap2 freshSession (encodeLines [bytesOf "FOO"]) =
      ({ freshSession with invalidCmds := 1 },
       [.rep 500 ⟨5, 5, 1⟩ (bytesOf "Command not recognized")]) := by
  constructor
  · have := (C8_invalid_command_cap 2 (by decide) srvCap2 (by decide)
      [bytesOf "FOO", bytesOf "BAR x"] (by decide)).1 (by decide) (bytesOf "NOOP\r\n")
    simpa [msg500] using this
  · have := (C8_invalid_command_cap 2 (by decide) srvCap2 (by decide)
      [bytesOf "FOO"] (by decide)).2 (by decide)
    simpa [msg500] using this

/-! ### PLAIN authentication round trip (claim C10) -/

theorem splitNull_append (a rest : GoStr) (h : (0 : Nat) ∉ a) :
    smtp.splitNull (a ++ 0 :: rest) = a :: smtp.splitNull rest := by
  induction a with
  | nil => simp [smtp.splitNull]
  | cons b tl ih =>
    have hb : b ≠ 0 := fun hb => h (by simp [hb])
    have htl : (0 : Nat) ∉ tl := fun hm => h (List.mem_cons_of_mem _ hm)
    rw [List.cons_append, smtp.splitNull, if_neg hb, ih htl]

theorem splitNull_single (a : GoStr) (h : (0 : Nat) ∉ a) :
    smtp.splitNull a = [a] := by
  induction a with
  | nil => rfl
  | cons b tl ih =>
    have hb : b ≠ 0 := fun hb => h (by simp [hb])
    have htl : (0 : Nat) ∉ tl := fun hm => h (List.mem_cons_of_mem _ hm)
    rw [smtp.splitNull, if_neg hb, ih htl]

/-- Claim C10: for identity, username and password free of NUL bytes,
the client-side PLAIN initial response splits on NUL into exactly
`[identity, username, password]`; the server passes any base64 transport
of that response to the authentication handler as mechanism "PLAIN",
user = username and pass = password, and on handler success sets the
authenticated flag and replies 235. -/
theorem C10_plain_roundtrip (identity username password : GoStr)
    (hi : (0 : Nat) ∉ identity) (hu : (0 : Nat) ∉ username) (hp : (0 : Nat) ∉ password)
    (srv : Server) (h : GoStr → GoStr → GoStr → Option HErr)
    (hah : srv.authHandler = some h)
    (hok : h (bytesOf "PLAIN") username password = none)
    (sess : Session) (resp : GoStr) (input : List Nat)
    (hresp : smtp.base64Decode resp =
      some (smtp.plainAuthStart identity username password)) :
    smtp.splitNull (smtp.plainAuthStart identity username password) =
      [identity, username, password] ∧
    authPLAIN srv sess resp input =
      ({ sess with authenticated := true },
       [.rep 235 ⟨2, 0, 0⟩ (bytesOf "Authentication successful")], input) := by
  have hshape : smtp.plainAuthStart identity username password =
      identity ++ 0 :: (username ++ 0 :: password) := by
    simp [smtp.plainAuthStart]
  have hsplit : smtp.splitNull (smtp.plainAuthStart identity username password) =
      [identity, username, password] := by
    rw [hshape, splitNull_append _ _ hi, splitNull_append _ _ hu, splitNull_single _ hp]
  refine ⟨hsplit, ?_⟩
  have hne : resp ≠ [] := by
    intro hresp0
    rw [hresp0] at hresp
    have : ([] : GoStr) = smtp.plainAuthStart identity username password := by
      simpa [smtp.base64Decode, smtp.base64DecodeCore] using hresp
    rw [hshape] at this
    simp at this
  have hneq : resp ≠ bytesOf "=" := by
    intro hresp0
    rw [hresp0, show smtp.base64Decode (bytesOf "=") = none from by decide] at hresp
    simp at hresp
  rw [authPLAIN, if_pos ⟨hne, hneq⟩, hresp]
  dsimp only
  rw [authPLAIN.authPLAINVerify, hsplit]
  dsimp only
  rw [hah]
  dsimp only
  rw [hok]

/-- Witness for C10: the empty identity with user "testuser" and
password "testpass", transported as the base64 initial response from
end-to-end scenario 4 of the specification. -/
theorem C10_plain_roundtrip_witness :
    smtp.splitNull (smtp.plainAuthStart [] (bytesOf "testuser") (bytesOf "testpass")) =
      [[], bytesOf "testuser", bytesOf "testpass"] ∧
    authPLAIN srvAuth freshSession (bytesOf "AHRlc3R1c2VyAHRlc3RwYXNz") [] =
      ({ freshSession with authenticated := true },
       [.rep 235 ⟨2, 0, 0⟩ (bytesOf "Authentication successful")], []) := by
  exact C10_plain_roundtrip [] (bytesOf "testuser") (bytesOf "testpass")
    (by decide) (by decide) (by decide) srvAuth authAccept rfl rfl
    freshSession (bytesOf "AHRlc3R1c2VyAHRlc3RwYXNz") [] (by decide)

end smtpserver
